import Mathlib

/-!
# VirtualC64 custom cartridges: register writes, bank switching, snapshots

A shallow embedding of `src/C64/CustomCartridges.cpp` (Final Cartridge III,
Simons Basic, Ocean type 1, Powerplay, Supergames) and of
`src/C64/Cartridges/CustomCartridges/Expert.cpp`.

Every `poke` of `CustomCartridges.cpp` acts on the machine through a handful of
calls: `c64->expansionport.setGameLine`, `c64->expansionport.setExromLine`,
`c64->cpu.setNMILineExpansionPort`, `c64->cpu.clearNMILineExpansionPort` and
`Cartridge::bankIn`.  The state those calls touch is gathered in one record,
`C64`, and each `poke` is a function from states to states.  A failed
`assert` is the result `none`.

The Expert cartridge has its own record, `Expert`; the serialisation methods of
its base class, which the sources do not contain, are parameters
(`CartridgeOps`).  The pause protocol of the scheduler, of which the sources
hold the declarations only, is modelled from the specification (`Scheduler`).

The routing table of the address space, which the sources do not contain
either, follows the two control lines; it is the function `AddressSpace.peekSrc`
of the state.

Bytes (`uint8_t`) and addresses (`uint16_t`) are natural numbers; theorems
about a byte `v` carry the bound `v < 256`.
-/

namespace VirtualC64

/-- The part of the machine the custom cartridges read and write.

* `gameLine`, `exromLine`: the two control lines of the expansion port
  (`true` = high).
* `ultimax`: the flag `C64::ultimax` of `C64.h`.
* `nmiLineExpansionPort`: the expansion port's NMI request to the CPU
  (`true` = asserted by `setNMILineExpansionPort`, `false` = released by
  `clearNMILineExpansionPort`).
* `chip`, `chipStartAddress`, `chipSize`: the cartridge's chip images, as the
  three arrays `FinalIII::reset` writes.
* `blendedIn`: for each 4KB bank slot of the address space (slot `n` covers
  `n * 0x1000 .. n * 0x1000 + 0xFFF`), the number of the chip banked in there.
* `initialGameLine`, `initialExromLine`: the cartridge's power-on line values. -/
structure C64 where
  gameLine : Bool
  exromLine : Bool
  ultimax : Bool
  nmiLineExpansionPort : Bool
  chip : Nat → Option (List Nat)
  chipStartAddress : Nat → Nat
  chipSize : Nat → Nat
  blendedIn : Nat → Nat
  initialGameLine : Bool
  initialExromLine : Bool

/-- Modelled from the spec: `ExpansionPort::setGameLine` (ExpansionPort.cpp is
not among the sources).  The spec has `setGameLine(bool)` store the line and
synchronously recompute the ultimax flag; by `C64.h` ultimax mode is "gameLine
low and exromLine high".  The update of the routing table that the spec lets
follow every change of a line is `AddressSpace.peekSrc` below: the table is
recomputed from the lines at each change, so it is a function of the state and
is not stored a second time in the record. -/
def setGameLine (value : Bool) (s : C64) : C64 :=
  { s with gameLine := value, ultimax := !value && s.exromLine }

/-- Modelled from the spec: `ExpansionPort::setExromLine` (ExpansionPort.cpp is
not among the sources).  Stores the line and recomputes the ultimax flag, as
`setGameLine` does; the routing table follows through `AddressSpace.peekSrc`. -/
def setExromLine (value : Bool) (s : C64) : C64 :=
  { s with exromLine := value, ultimax := !s.gameLine && value }

/-- Modelled from the spec: `CPU::setNMILineExpansionPort` (CPU.cpp is not among
the sources).  The expansion port pulls the CPU's NMI line: the request is
asserted. -/
def setNMILineExpansionPort (s : C64) : C64 :=
  { s with nmiLineExpansionPort := true }

/-- Modelled from the spec: `CPU::clearNMILineExpansionPort` (CPU.cpp is not
among the sources).  The expansion port releases the CPU's NMI line. -/
def clearNMILineExpansionPort (s : C64) : C64 :=
  { s with nmiLineExpansionPort := false }

/-- Modelled from the spec: `Cartridge::bankIn` (Cartridge.cpp is not among the
sources).  The spec's cartridge holds chip images with a load address and a
size, and the address space is 16 bank slots of 4KB; banking in chip `nr` makes
it the chip of every slot its address range covers.  A chip that is not
present is not banked in. -/
def bankIn (nr : Nat) (s : C64) : C64 :=
  match s.chip nr with
  | none => s
  | some _ =>
    let firstBank := s.chipStartAddress nr / 0x1000
    let numBanks := s.chipSize nr / 0x1000
    { s with blendedIn := fun slot =>
        if firstBank ≤ slot ∧ slot < firstBank + numBanks then nr
        else s.blendedIn slot }

/-- The conversion of a `uint8_t` argument to the `bool` parameter of
`setGameLine` / `setExromLine`, and the truth value of a `uint8_t` in a
condition: nonzero is true. -/
def toBool (n : Nat) : Bool := n != 0

/-! ## Final Cartridge III -/

/-- Embedding of `FinalIII::poke` (CustomCartridges.cpp, lines 74-122). -/
def FinalIII.poke (addr value : Nat) (s : C64) : Option C64 :=
  if ¬ (0xDE00 ≤ addr ∧ addr ≤ 0xDFFF) then none
  else if addr = 0xDFFF then
    let hide := value &&& 0x80
    let nmi := value &&& 0x40
    let game := value &&& 0x20
    let exrom := value &&& 0x10
    let bank := value &&& 0x03
    -- Bit 7
    let s1 := if toBool hide then setExromLine true (setGameLine true s) else s
    -- Bit 6
    let s2 := if toBool nmi then clearNMILineExpansionPort s1
              else setNMILineExpansionPort s1
    -- Bit 5 and 4
    let s3 := setExromLine (toBool exrom) (setGameLine (toBool game) s2)
    -- Bit 1 and 0
    some (bankIn (bank + 4) (bankIn bank s3))
  else some s

/-- The state `FinalIII::poke` has reached after lines 104-116 of a write of
`value` to `0xDFFF`: bits 7, 6, 5 and 4 applied, the banks not yet switched. -/
def FinalIII.afterLines (value : Nat) (s : C64) : C64 :=
  let s1 := if toBool (value &&& 0x80) then setExromLine true (setGameLine true s) else s
  let s2 := if toBool (value &&& 0x40) then clearNMILineExpansionPort s1
            else setNMILineExpansionPort s1
  setExromLine (toBool (value &&& 0x10)) (setGameLine (toBool (value &&& 0x20)) s2)

/-- The chip layout `FinalIII::reset` sets up for bank `b` (lines 31-52): the
16KB chip `b` present at `0x8000`, and chip `b + 4`, the copy of its upper half,
present at `0xE000` with size `0x2000`. -/
def FinalIII.hasBank (s : C64) (b : Nat) : Prop :=
  s.chip b ≠ none ∧ s.chipStartAddress b = 0x8000 ∧ s.chipSize b = 0x4000 ∧
  s.chip (b + 4) ≠ none ∧ s.chipStartAddress (b + 4) = 0xE000 ∧ s.chipSize (b + 4) = 0x2000

/-! ## Simons Basic -/

/-- Embedding of `SimonsBasic::poke` (CustomCartridges.cpp, lines 170-179). -/
def SimonsBasic.poke (addr _value : Nat) (s : C64) : Option C64 :=
  if ¬ (0xDE00 ≤ addr ∧ addr ≤ 0xDFFF) then none
  else if addr = 0xDE00 then some (setGameLine false s)
  else some s

/-! ## Ocean type 1 -/

/-- Embedding of `OceanType1::poke` (CustomCartridges.cpp, lines 196-204). -/
def OceanType1.poke (addr value : Nat) (s : C64) : Option C64 :=
  if ¬ (0xDE00 ≤ addr ∧ addr ≤ 0xDFFF) then none
  else if addr = 0xDE00 then some (bankIn (value &&& 0x3F) s)
  else some s

/-! ## Powerplay / Funplay -/

/-- The local `uint8_t bank` of `Powerplay::poke` (line 233): the operands are
promoted to `int`, and the result is stored in a byte. -/
def Powerplay.bank (value : Nat) : Nat :=
  (((value >>> 3) &&& 0x07) ||| ((value <<< 3) &&& 0x08)) % 256

/-- Embedding of `Powerplay::poke` (CustomCartridges.cpp, lines 211-237). -/
def Powerplay.poke (addr value : Nat) (s : C64) : Option C64 :=
  if ¬ (0xDE00 ≤ addr ∧ addr ≤ 0xDFFF) then none
  else if addr = 0xDE00 then
    if value = 0x86 then some (setExromLine true (setGameLine true s))
    else
      let bank := Powerplay.bank value
      if ¬ (bank < 16) then none else some (bankIn bank s)
  else some s

/-! ## Supergames -/

/-- Embedding of `Supergames::poke` (CustomCartridges.cpp, lines 250-279). -/
def Supergames.poke (addr value : Nat) (s : C64) : Option C64 :=
  if ¬ (0xDE00 ≤ addr ∧ addr ≤ 0xDFFF) then none
  else if addr = 0xDF00 then
    let bank := value &&& 0x03
    let ctrl := value &&& 0x04
    let s1 := if toBool ctrl then setGameLine true (setExromLine false s)
              else setGameLine false (setExromLine false s)
    some (bankIn bank s1)
  else some s

/-! ## Final Cartridge III: reset and the two buttons -/

/-- One round of the loop of `FinalIII::reset` (lines 45-52): chip `i` must be
present (the `assert`); chip `i + 4` becomes a fresh 8KB chip at `0xE000`
holding the bytes `0x2000 .. 0x3FFF` of chip `i` (of a chip shorter than
`0x4000` bytes, where `memcpy` would read past the end, the bytes that exist). -/
def FinalIII.resetStep (s : C64) (i : Nat) : Option C64 :=
  match s.chip i with
  | none => none
  | some data =>
    some { s with
      chipStartAddress := Function.update s.chipStartAddress (i + 4) 0xE000
      chipSize := Function.update s.chipSize (i + 4) 0x2000
      chip := Function.update s.chip (i + 4) (some ((data.drop 0x2000).take 0x2000)) }

/-- Embedding of `FinalIII::reset` (CustomCartridges.cpp, lines 26-58). -/
def FinalIII.reset (s : C64) : Option C64 :=
  ((List.range 4).foldl (fun acc i => acc.bind fun t => FinalIII.resetStep t i) (some s)).map
    fun t => { bankIn 0 t with initialGameLine := false, initialExromLine := false }

/-- Embedding of `FinalIII::reset` (CustomCartridges.cpp, lines 26-58) with
`Cartridge::bankIn`, which is not among the sources, as the parameter `bankIn'`.
`FinalIII.reset` above is this function at the `bankIn` of this file. -/
def FinalIII.resetWith (bankIn' : Nat → C64 → C64) (s : C64) : Option C64 :=
  ((List.range 4).foldl (fun acc i => acc.bind fun t => FinalIII.resetStep t i) (some s)).map
    fun t => { bankIn' 0 t with initialGameLine := false, initialExromLine := false }

/-- Embedding of `FinalIII::pressFirstButton` (lines 124-131). -/
def FinalIII.pressFirstButton (s : C64) : Option C64 :=
  FinalIII.poke 0xDFFF 0x10 s

/-- The machine as `FinalIII::pressSecondButton` sees it: the state of the
cartridges above and the 64KB array `c64->mem.ram`. -/
structure Machine where
  c64 : C64
  ram : Nat → Nat

/-- Embedding of `FinalIII::pressSecondButton` (lines 133-144).  `C64::reset`
(C64.cpp) is not among the sources and is the parameter `reset`.  The local
array `ram` has `0xFFFF` cells, and both `memcpy` calls copy `0xFFFF` bytes. -/
def FinalIII.pressSecondButton (reset : Machine → Machine) (m : Machine) : Machine :=
  let ram : Nat → Nat := fun k => if k < 0xFFFF then m.ram k else 0
  let m1 := reset m
  { m1 with ram := fun a => if a < 0xFFFF then ram a else m1.ram a }

/-- The five effects of one write to the control register of the Final
Cartridge III, one per bit field (lines 104-120). -/
inductive FinalIII.Effect where
  | hide
  | nmi
  | game
  | exrom
  | bank
  deriving DecidableEq, Repr

/-- What each effect of a write of `value` does to the state, as in the body
of `FinalIII::poke`. -/
def FinalIII.Effect.apply (value : Nat) : FinalIII.Effect → C64 → C64
  | .hide, s => if toBool (value &&& 0x80) then setExromLine true (setGameLine true s) else s
  | .nmi, s => if toBool (value &&& 0x40) then clearNMILineExpansionPort s
               else setNMILineExpansionPort s
  | .game, s => setGameLine (toBool (value &&& 0x20)) s
  | .exrom, s => setExromLine (toBool (value &&& 0x10)) s
  | .bank, s => bankIn ((value &&& 0x03) + 4) (bankIn (value &&& 0x03) s)

/-- The effects of a write of `value` applied one after the other, first
element first. -/
def FinalIII.applyEffects (value : Nat) (l : List FinalIII.Effect) (s : C64) : C64 :=
  l.foldl (fun t e => e.apply value t) s

/-! ## Scheduler: suspend and resume -/

/-- Modelled from the spec: the pause state of the scheduler.  `C64::suspend`
and `C64::resume` are declared in `C64.h` (lines 388-407); their bodies (C64.cpp)
are not among the sources.  The spec keeps a pause depth counter and a clock
position that the execution thread advances. -/
structure Scheduler where
  pauseDepth : Nat
  cycle : Nat

/-- Modelled from the spec: `C64::suspend`, which is missing from the sources.
It increments the pause depth, whoever the caller is. -/
def Scheduler.suspend (_caller : Nat) (s : Scheduler) : Scheduler :=
  { s with pauseDepth := s.pauseDepth + 1 }

/-- Modelled from the spec: `C64::resume`, which is missing from the sources.
It decrements the pause depth, whoever the caller is. -/
def Scheduler.resume (_caller : Nat) (s : Scheduler) : Scheduler :=
  { s with pauseDepth := s.pauseDepth - 1 }

/-- Modelled from the spec: one visit of the execution thread to a cycle
boundary, which is missing from the sources.  The thread blocks while the pause
depth is above 0 and otherwise executes one cycle. -/
def Scheduler.executionThreadStep (s : Scheduler) : Scheduler :=
  if 0 < s.pauseDepth then s else { s with cycle := s.cycle + 1 }

/-! ## Expert cartridge (`src/C64/Cartridges/CustomCartridges/Expert.cpp`) -/

/-- The serialisation cursor `uint8_t **buffer`: the memory it points into and
the current pointer `*buffer`. -/
structure Buffer where
  mem : Nat → Nat
  ptr : Nat

/-- Modelled from the spec: `write8`, a helper that is not among the sources.
It stores one byte at the pointer and advances the pointer by one. -/
def write8 (b : Buffer) (value : Nat) : Buffer :=
  { mem := Function.update b.mem b.ptr (value % 256), ptr := b.ptr + 1 }

/-- Modelled from the spec: `read8`, a helper that is not among the sources.
It returns the byte at the pointer and advances the pointer by one. -/
def read8 (b : Buffer) : Nat × Buffer :=
  (b.mem b.ptr % 256, { b with ptr := b.ptr + 1 })

/-- The members of the base class `Cartridge` that `Expert.cpp` reads or
writes: the on-board RAM (`none` is the null pointer) and its capacity. -/
structure Cartridge where
  externalRam : Option (Nat → Nat)
  ramCapacity : Nat

/-- The three serialisation methods of the base class `Cartridge`
(Cartridge.cpp is not among the sources), taken as parameters. -/
structure CartridgeOps where
  stateSize : Cartridge → Nat
  saveToBuffer : Cartridge → Buffer → Buffer
  loadFromBuffer : Cartridge → Buffer → Cartridge × Buffer

/-- The Expert cartridge: the base class members and the flag `active`. -/
structure Expert extends Cartridge where
  active : Bool

/-- Modelled from the spec: `Cartridge::setRamCapacity` (Cartridge.cpp is not
among the sources).  The cartridge gets an on-board store of the given
capacity; its cells are taken to start at 0. -/
def Cartridge.setRamCapacity (size : Nat) (_c : Cartridge) : Cartridge :=
  { externalRam := some (fun _ => 0), ramCapacity := size }

/-- Embedding of the constructor `Expert::Expert` (Expert.cpp, lines 28-38),
run on a base object `c`. -/
def Expert.new (c : Cartridge) : Expert :=
  { toCartridge := Cartridge.setRamCapacity 0x2000 c, active := false }

/-- Embedding of `Expert::stateSize` (lines 48-52). -/
def Expert.stateSize (ops : CartridgeOps) (e : Expert) : Nat :=
  ops.stateSize e.toCartridge + 1

/-- Embedding of `Expert::loadFromBuffer` (lines 54-63).  The result is `none`
when `assert(false)` is reached. -/
def Expert.loadFromBuffer (ops : CartridgeOps) (e : Expert) (buffer : Buffer) :
    Option (Expert × Buffer) :=
  let old := buffer.ptr
  let r := ops.loadFromBuffer e.toCartridge buffer
  let v := read8 r.2
  let e1 : Expert := { toCartridge := r.1, active := toBool v.1 }
  if (v.2.ptr : Int) - (old : Int) ≠ (Expert.stateSize ops e1 : Int) then none
  else some (e1, v.2)

/-- Embedding of `Expert::saveToBuffer` (lines 65-74).  The result is `none`
when `assert(false)` is reached. -/
def Expert.saveToBuffer (ops : CartridgeOps) (e : Expert) (buffer : Buffer) :
    Option Buffer :=
  let old := buffer.ptr
  let b1 := ops.saveToBuffer e.toCartridge buffer
  let b2 := write8 b1 (if e.active then 1 else 0)
  if (b2.ptr : Int) - (old : Int) ≠ (Expert.stateSize ops e : Int) then none
  else some b2

/-- The three accessors of `CRTFile` that `Expert::loadChip` calls (CRTFile.h is
not among the sources): size, load address and bytes of chip `nr`. -/
structure CRTFile where
  chipSize : Nat → Nat
  chipAddr : Nat → Nat
  chipData : Nat → Nat → Nat

/-- Embedding of `Expert::loadChip` (lines 76-96).  The result is `none` when
an `assert` fails; the flag of the result tells whether the chip was rejected
(the `warn` branch was taken). -/
def Expert.loadChip (nr : Nat) (c : CRTFile) (e : Expert) : Option (Expert × Bool) :=
  let chipSize := c.chipSize nr % 0x10000
  let chipAddr := c.chipAddr nr % 0x10000
  let chipData := c.chipData nr
  if nr ≠ 0 ∨ chipSize ≠ 0x2000 ∨ chipAddr ≠ 0x8000 then some (e, true)
  else
    match e.externalRam with
    | none => none
    | some ram =>
      if e.ramCapacity ≠ chipSize then none
      else
        some ({ e with externalRam := some fun k => if k < chipSize then chipData k else ram k },
          false)

/-- Modelled from the spec: the tags of a bank slot of the address space
(C64_types.h is not among the sources).  The spec lists RAM, the three ROMs,
the I/O registers, cartridge-low, cartridge-high and unmapped; `Expert.cpp`
names `M_CRTLO`. -/
inductive MemoryType where
  | M_RAM
  | M_KERNAL
  | M_BASIC
  | M_CHAR
  | M_IO
  | M_CRTLO
  | M_CRTHI
  | M_NONE
  deriving DecidableEq, Repr

/-- The two routing tables of `c64->mem`: read source and write target of each
of the 16 bank slots. -/
structure C64Memory where
  peekSrc : Nat → MemoryType
  pokeTarget : Nat → MemoryType

/-- Embedding of `Expert::updatePeekPokeLookupTables` (lines 98-105): the loop
over `i = 1 .. 15`. -/
def Expert.updatePeekPokeLookupTables (_e : Expert) (mem : C64Memory) : C64Memory :=
  (List.range' 1 15).foldl
    (fun m i =>
      { peekSrc := Function.update m.peekSrc i MemoryType.M_CRTLO
        pokeTarget := Function.update m.pokeTarget i MemoryType.M_CRTLO })
    mem

/-! ## Address space: the routing that follows the control lines -/

/-- Modelled from the spec: the read source of the 4KB bank slot `slot` of the
address space with a cartridge attached (C64Memory.cpp is not among the
sources).  By the spec every change of GAME or EXROM is followed at once by an
update of the routing table, and the two lines select one of four memory
configurations:

* both lines high: the cartridge's override is disabled and the slots have
  their power-on sources (RAM, BASIC ROM at `0xA000`, I/O at `0xD000`, kernel
  ROM at `0xE000`);
* EXROM low, GAME high (the 8KB configuration of `SimonsBasic::peekIO`):
  cartridge-low at `0x8000`;
* both lines low (the 16KB configuration of `SimonsBasic::poke`): cartridge-low
  at `0x8000`, cartridge-high at `0xA000`;
* GAME low, EXROM high (ultimax): cartridge-low at `0x8000`, cartridge-high at
  `0xE000`, I/O at `0xD000`, RAM in the first slot, all else unmapped. -/
def AddressSpace.peekSrc (s : C64) (slot : Nat) : MemoryType :=
  if 16 ≤ slot then MemoryType.M_NONE
  else if s.gameLine = false ∧ s.exromLine = true then
    if slot = 0 then MemoryType.M_RAM
    else if 8 ≤ slot ∧ slot < 10 then MemoryType.M_CRTLO
    else if slot = 13 then MemoryType.M_IO
    else if 14 ≤ slot then MemoryType.M_CRTHI
    else MemoryType.M_NONE
  else if 8 ≤ slot ∧ slot < 10 ∧ s.exromLine = false then MemoryType.M_CRTLO
  else if 10 ≤ slot ∧ slot < 12 then
    if s.exromLine = false ∧ s.gameLine = false then MemoryType.M_CRTHI
    else MemoryType.M_BASIC
  else if slot = 13 then MemoryType.M_IO
  else if 14 ≤ slot then MemoryType.M_KERNAL
  else MemoryType.M_RAM

/-! ## Reading the I/O windows -/

/-- Modelled from the spec: `Cartridge::peek` (Cartridge.cpp is not among the
sources).  A read of cartridge memory returns a byte of the chip banked into the
bank slot of the address, at the offset of the address from the chip's load
address; it changes no state.  Used for concrete runs only: the embedding of
`FinalIII::peekIO` takes the method as a parameter. -/
def Cartridge.peek (addr : Nat) (s : C64) : Nat :=
  match s.chip (s.blendedIn (addr / 0x1000)) with
  | none => 0
  | some data => data.getD (addr - s.chipStartAddress (s.blendedIn (addr / 0x1000))) 0

/-- Embedding of `FinalIII::peekIO` (CustomCartridges.cpp, lines 60-72).  The
method `peek` of the base class is the parameter `peek`, a read of the state.
`offset` and the argument of `peek` are `uint16_t`.  The result is the byte
read and the state after the call. -/
def FinalIII.peekIO (peek : Nat → C64 → Nat) (addr : Nat) (s : C64) : Option (Nat × C64) :=
  if ¬ (0xDE00 ≤ addr ∧ addr ≤ 0xDFFF) then none
  else
    let offset := (addr - 0xDE00) % 0x10000
    some (peek ((0x8000 + 0x1E00 + offset) % 0x10000) s, s)

/-- Embedding of `SimonsBasic::peekIO` (CustomCartridges.cpp, lines 158-168).
`Cartridge::peekIO` (Cartridge.cpp is not among the sources) is the parameter
`basePeek`, a read of the state.  The result is the byte read and the state
after the call. -/
def SimonsBasic.peekIO (basePeek : Nat → C64 → Nat) (addr : Nat) (s : C64) :
    Option (Nat × C64) :=
  if ¬ (0xDE00 ≤ addr ∧ addr ≤ 0xDFFF) then none
  else
    let s1 := if addr = 0xDE00 then setGameLine true s else s
    some (basePeek addr s1, s1)

/-! ## Expert: reset -/

/-- Embedding of `Expert::reset` (Expert.cpp, lines 40-46).  `Cartridge::reset`
(Cartridge.cpp is not among the sources) is the parameter `baseReset`.  The
`memset` clears `ramCapacity` cells of the on-board RAM; through a null pointer
it has no result. -/
def Expert.reset (baseReset : Cartridge → Cartridge) (e : Expert) : Option Expert :=
  let c := baseReset e.toCartridge
  match c.externalRam with
  | none => none
  | some ram =>
    some
      { externalRam := some (fun k => if k < c.ramCapacity then 0 else ram k)
        ramCapacity := c.ramCapacity
        active := false }

/-! ## A concrete cartridge state -/

/-- A Final Cartridge III after attach: four 16KB chips at `0x8000`, their
upper halves as chips 4..7 at `0xE000`, bank 1 selected, both control lines
high, no NMI request. -/
def sampleFinalIII : C64 where
  gameLine := true
  exromLine := true
  ultimax := false
  nmiLineExpansionPort := false
  chip := fun n => if n < 4 then some (List.replicate 0x4000 n)
                   else if n < 8 then some (List.replicate 0x2000 (n - 4))
                   else none
  chipStartAddress := fun n => if n < 4 then 0x8000 else if n < 8 then 0xE000 else 0
  chipSize := fun n => if n < 4 then 0x4000 else if n < 8 then 0x2000 else 0
  blendedIn := fun slot => if 8 ≤ slot ∧ slot < 12 then 1
                           else if 14 ≤ slot ∧ slot < 16 then 5 else 0
  initialGameLine := false
  initialExromLine := false

/-- A bank-switched cartridge of sixteen 8KB chips at `0x8000` (the layout of a
Powerplay cartridge, or of a small Ocean one), bank 3 selected, EXROM low and
GAME high (the 8KB configuration). -/
def sampleBanked : C64 where
  gameLine := true
  exromLine := false
  ultimax := false
  nmiLineExpansionPort := false
  chip := fun n => if n < 16 then some (List.replicate 0x2000 n) else none
  chipStartAddress := fun n => if n < 16 then 0x8000 else 0
  chipSize := fun n => if n < 16 then 0x2000 else 0
  blendedIn := fun slot => if 8 ≤ slot ∧ slot < 10 then 3 else 0
  initialGameLine := true
  initialExromLine := false

/-- A base-class serialiser for concrete runs: two bytes, the capacity of the
on-board RAM, high byte first; loading keeps the RAM of the receiving object. -/
def sampleCartridgeOps : CartridgeOps where
  stateSize := fun _ => 2
  saveToBuffer := fun c b => write8 (write8 b (c.ramCapacity / 256)) (c.ramCapacity % 256)
  loadFromBuffer := fun c b =>
    ({ c with ramCapacity := (read8 b).1 * 256 + (read8 (read8 b).2).1 }, (read8 (read8 b).2).2)

/-- An Expert cartridge as the constructor leaves it, then switched active. -/
def sampleExpert : Expert :=
  { Expert.new { externalRam := none, ramCapacity := 0 } with active := true }

/-- An empty serialisation buffer with the pointer at address 16. -/
def sampleBuffer : Buffer where
  mem := fun _ => 0
  ptr := 16

/-- A cartridge image with 8KB chips at `0x8000`, byte `k` of a chip being
`k mod 256`. -/
def sampleCRT : CRTFile where
  chipSize := fun _ => 0x2000
  chipAddr := fun _ => 0x8000
  chipData := fun _ k => k % 256

/-- The Expert cartridge the constructor leaves, after `loadChip` has copied
chip 0 of the sample image into its RAM. -/
def sampleLoadedExpert : Expert where
  externalRam := some (fun k => if k < 0x2000 then sampleCRT.chipData 0 k else 0)
  ramCapacity := 0x2000
  active := false

/-- Routing tables with every bank slot read from and written to RAM. -/
def sampleMemory : C64Memory where
  peekSrc := fun _ => MemoryType.M_RAM
  pokeTarget := fun _ => MemoryType.M_RAM

/-- A machine whose RAM holds `0x42` in every cell. -/
def sampleMachine : Machine where
  c64 := sampleFinalIII
  ram := fun _ => 0x42

/-- A machine reset that clears the RAM. -/
def sampleReset (m : Machine) : Machine :=
  { m with ram := fun _ => 0 }

/-! ## Bit-field facts used below -/

set_option maxRecDepth 100000 in
theorem toBool_and_mask_testBit :
    ∀ v < 256,
      toBool (v &&& 0x80) = v.testBit 7 ∧ toBool (v &&& 0x40) = v.testBit 6 ∧
      toBool (v &&& 0x20) = v.testBit 5 ∧ toBool (v &&& 0x10) = v.testBit 4 := by
  decide

set_option maxRecDepth 100000 in
theorem and_three_eq_mod : ∀ v < 256, v &&& 0x03 = v % 4 := by
  decide

set_option maxRecDepth 100000 in
theorem and_0x3F_eq_mod : ∀ v < 256, v &&& 0x3F = v % 64 := by
  decide

set_option maxRecDepth 100000 in
theorem Powerplay.bank_eq : ∀ v < 256,
    Powerplay.bank v = ((v >>> 3) &&& 7) ||| ((v &&& 1) <<< 3) ∧
    Powerplay.bank v < 16 := by
  decide

set_option maxRecDepth 100000 in
theorem Powerplay.bank_testBit : ∀ v < 256,
    (Powerplay.bank v).testBit 0 = v.testBit 3 ∧
    (Powerplay.bank v).testBit 1 = v.testBit 4 ∧
    (Powerplay.bank v).testBit 2 = v.testBit 5 ∧
    (Powerplay.bank v).testBit 3 = v.testBit 0 := by
  decide

/-- The value of `Powerplay::poke` at its bank register for a byte other than
the sentinel `0x86`. -/
theorem Powerplay.poke_DE00_eq (v : Nat) (hv : v < 256) (h86 : v ≠ 0x86) (s : C64) :
    Powerplay.poke 0xDE00 v s = some (bankIn (Powerplay.bank v) s) := by
  have hlt := (Powerplay.bank_eq v hv).2
  simp [Powerplay.poke, h86, hlt]

/-! ## What the helper calls leave alone -/

@[simp] theorem bankIn_gameLine (nr : Nat) (s : C64) :
    (bankIn nr s).gameLine = s.gameLine := by
  unfold bankIn; split <;> rfl

@[simp] theorem bankIn_exromLine (nr : Nat) (s : C64) :
    (bankIn nr s).exromLine = s.exromLine := by
  unfold bankIn; split <;> rfl

@[simp] theorem bankIn_ultimax (nr : Nat) (s : C64) :
    (bankIn nr s).ultimax = s.ultimax := by
  unfold bankIn; split <;> rfl

@[simp] theorem bankIn_nmiLineExpansionPort (nr : Nat) (s : C64) :
    (bankIn nr s).nmiLineExpansionPort = s.nmiLineExpansionPort := by
  unfold bankIn; split <;> rfl

@[simp] theorem bankIn_chip (nr : Nat) (s : C64) :
    (bankIn nr s).chip = s.chip := by
  unfold bankIn; split <;> rfl

@[simp] theorem bankIn_chipStartAddress (nr : Nat) (s : C64) :
    (bankIn nr s).chipStartAddress = s.chipStartAddress := by
  unfold bankIn; split <;> rfl

@[simp] theorem bankIn_chipSize (nr : Nat) (s : C64) :
    (bankIn nr s).chipSize = s.chipSize := by
  unfold bankIn; split <;> rfl

/-- Banking in a present chip: every slot of its address range shows the chip,
every other slot keeps what it showed. -/
theorem bankIn_blendedIn_of_present (nr : Nat) (s : C64) (slot : Nat)
    (h : s.chip nr ≠ none) :
    (bankIn nr s).blendedIn slot =
      if s.chipStartAddress nr / 0x1000 ≤ slot ∧
          slot < s.chipStartAddress nr / 0x1000 + s.chipSize nr / 0x1000
      then nr else s.blendedIn slot := by
  unfold bankIn
  split
  · contradiction
  · rfl

/-- The slot table `bankIn` leaves depends only on the chips and on the slot
table it starts from. -/
theorem bankIn_blendedIn_congr (nr : Nat) (s t : C64)
    (hc : s.chip = t.chip) (ha : s.chipStartAddress = t.chipStartAddress)
    (hz : s.chipSize = t.chipSize) (hb : s.blendedIn = t.blendedIn) :
    (bankIn nr s).blendedIn = (bankIn nr t).blendedIn := by
  unfold bankIn
  rw [hc, ha, hz]
  split
  · exact hb
  · simp only [hb]

/-- The value of `FinalIII::poke` at its control register: the line effects of
bits 7 to 4, then the two `bankIn` calls. -/
theorem FinalIII.poke_DFFF_eq (v : Nat) (s : C64) :
    FinalIII.poke 0xDFFF v s =
      some (bankIn ((v &&& 0x03) + 4) (bankIn (v &&& 0x03) (FinalIII.afterLines v s))) := by
  simp [FinalIII.poke, FinalIII.afterLines]

theorem FinalIII.afterLines_gameLine (v : Nat) (s : C64) :
    (FinalIII.afterLines v s).gameLine = toBool (v &&& 0x20) := by
  simp [FinalIII.afterLines, setExromLine, setGameLine]

theorem FinalIII.afterLines_exromLine (v : Nat) (s : C64) :
    (FinalIII.afterLines v s).exromLine = toBool (v &&& 0x10) := by
  simp [FinalIII.afterLines, setExromLine, setGameLine]

theorem FinalIII.afterLines_nmiLineExpansionPort (v : Nat) (s : C64) :
    (FinalIII.afterLines v s).nmiLineExpansionPort = !toBool (v &&& 0x40) := by
  unfold FinalIII.afterLines
  cases toBool (v &&& 0x40) <;> rfl

/-- The line effects of a control-register write touch neither the chips nor
the slot table. -/
theorem FinalIII.afterLines_frame (v : Nat) (s : C64) :
    (FinalIII.afterLines v s).chip = s.chip ∧
    (FinalIII.afterLines v s).chipStartAddress = s.chipStartAddress ∧
    (FinalIII.afterLines v s).chipSize = s.chipSize ∧
    (FinalIII.afterLines v s).blendedIn = s.blendedIn := by
  unfold FinalIII.afterLines
  cases toBool (v &&& 0x40) <;> cases toBool (v &&& 0x80) <;> exact ⟨rfl, rfl, rfl, rfl⟩

/-- The slot table after a control-register write is the old table with chip
`v & 3` and then chip `(v & 3) + 4` banked in. -/
theorem FinalIII.poke_DFFF_blendedIn (v : Nat) (s : C64) :
    (bankIn ((v &&& 0x03) + 4) (bankIn (v &&& 0x03) (FinalIII.afterLines v s))).blendedIn =
      (bankIn ((v &&& 0x03) + 4) (bankIn (v &&& 0x03) s)).blendedIn := by
  obtain ⟨hc, ha, hz, hb⟩ := FinalIII.afterLines_frame v s
  apply bankIn_blendedIn_congr
  · simp [hc]
  · simp [ha]
  · simp [hz]
  · exact bankIn_blendedIn_congr _ _ _ hc ha hz hb

/-! ## Final Cartridge III: the control register `0xDFFF` -/

/-- C1: for every byte `v`, `FinalIII::poke(0xDFFF, v)` returns, and in the
state it leaves the GAME line is high iff bit 5 of `v` is set and the EXROM
line is high iff bit 4 of `v` is set. -/
theorem FinalIII.poke_game_exrom_follow_bits_5_4 (v : Nat) (hv : v < 256) (s : C64) :
    ∃ s', FinalIII.poke 0xDFFF v s = some s' ∧
      (s'.gameLine = true ↔ v.testBit 5 = true) ∧
      (s'.exromLine = true ↔ v.testBit 4 = true) := by
  obtain ⟨_, _, h5, h4⟩ := toBool_and_mask_testBit v hv
  refine ⟨_, FinalIII.poke_DFFF_eq v s, ?_, ?_⟩
  · simp [FinalIII.afterLines_gameLine, h5]
  · simp [FinalIII.afterLines_exromLine, h4]

/-- Witness of C1 at the byte `0x20` (GAME bit only) on the sample cartridge. -/
theorem FinalIII.poke_game_exrom_follow_bits_5_4_witness :
    ∃ s', FinalIII.poke 0xDFFF 0x20 sampleFinalIII = some s' ∧
      (s'.gameLine = true ↔ (0x20 : Nat).testBit 5 = true) ∧
      (s'.exromLine = true ↔ (0x20 : Nat).testBit 4 = true) :=
  FinalIII.poke_game_exrom_follow_bits_5_4 0x20 (by decide) sampleFinalIII

/-- C2 (the code at the failing input): from every state, the write of `0x80`
(bit 7 set, bits 5 and 4 clear) to `0xDFFF` leaves both the GAME and the EXROM
line low: the lines the `hide` branch raised are overwritten by bits 5 and 4. -/
theorem FinalIII.poke_hide_only_leaves_lines_low (s : C64) :
    ∃ s', FinalIII.poke 0xDFFF 0x80 s = some s' ∧
      s'.gameLine = false ∧ s'.exromLine = false := by
  have h5 : toBool (0x80 &&& 0x20) = false := by decide
  have h4 : toBool (0x80 &&& 0x10) = false := by decide
  refine ⟨_, FinalIII.poke_DFFF_eq 0x80 s, ?_, ?_⟩
  · simp [FinalIII.afterLines_gameLine, h5]
  · simp [FinalIII.afterLines_exromLine, h4]

/-- C3: for every byte `v`, `FinalIII::poke(0xDFFF, v)` returns, and in the
state it leaves the expansion port's NMI request is asserted iff bit 6 of `v`
is 0 and released iff bit 6 of `v` is 1. -/
theorem FinalIII.poke_nmi_follows_bit_6 (v : Nat) (hv : v < 256) (s : C64) :
    ∃ s', FinalIII.poke 0xDFFF v s = some s' ∧
      (s'.nmiLineExpansionPort = true ↔ v.testBit 6 = false) ∧
      (s'.nmiLineExpansionPort = false ↔ v.testBit 6 = true) := by
  obtain ⟨_, h6, _, _⟩ := toBool_and_mask_testBit v hv
  refine ⟨_, FinalIII.poke_DFFF_eq v s, ?_, ?_⟩
  · simp [FinalIII.afterLines_nmiLineExpansionPort, h6]
  · simp [FinalIII.afterLines_nmiLineExpansionPort, h6]

/-- Witness of C3 at the byte `0x40` (NMI bit only) on the sample cartridge. -/
theorem FinalIII.poke_nmi_follows_bit_6_witness :
    ∃ s', FinalIII.poke 0xDFFF 0x40 sampleFinalIII = some s' ∧
      (s'.nmiLineExpansionPort = true ↔ (0x40 : Nat).testBit 6 = false) ∧
      (s'.nmiLineExpansionPort = false ↔ (0x40 : Nat).testBit 6 = true) :=
  FinalIII.poke_nmi_follows_bit_6 0x40 (by decide) sampleFinalIII

/-- C4: for every byte `v`, `FinalIII::poke(0xDFFF, v)` returns and banks in
chip `v & 3` and then chip `(v & 3) + 4`: the slot table it leaves is the old
one after `bankIn(v & 3)` and `bankIn((v & 3) + 4)`.  On a cartridge laid out by
`reset`, that puts chip `v & 3` in the slots of `0x8000-0xBFFF` and chip
`(v & 3) + 4` in the slots of `0xE000-0xFFFF`, all other slots unchanged.  A byte
`w` with the same bits 1-0 leaves the same slot table, whatever bits 2-7 are. -/
theorem FinalIII.poke_banks_in_chip_and_sibling (v : Nat) (hv : v < 256) (s : C64) :
    ∃ s', FinalIII.poke 0xDFFF v s = some s' ∧
      s'.blendedIn = (bankIn (v % 4 + 4) (bankIn (v % 4) s)).blendedIn ∧
      (FinalIII.hasBank s (v % 4) →
        ∀ slot, s'.blendedIn slot =
          if 14 ≤ slot ∧ slot < 16 then v % 4 + 4
          else if 8 ≤ slot ∧ slot < 12 then v % 4
          else s.blendedIn slot) ∧
      (∀ w, w < 256 → w % 4 = v % 4 →
        ∃ t', FinalIII.poke 0xDFFF w s = some t' ∧ t'.blendedIn = s'.blendedIn) := by
  have hmod := and_three_eq_mod v hv
  have htab : (bankIn ((v &&& 0x03) + 4) (bankIn (v &&& 0x03)
      (FinalIII.afterLines v s))).blendedIn =
      (bankIn (v % 4 + 4) (bankIn (v % 4) s)).blendedIn := by
    rw [FinalIII.poke_DFFF_blendedIn, hmod]
  refine ⟨_, FinalIII.poke_DFFF_eq v s, htab, ?_, ?_⟩
  · rintro ⟨hc, ha, hz, hc4, ha4, hz4⟩ slot
    rw [htab, bankIn_blendedIn_of_present _ _ _ (by simpa using hc4)]
    simp only [bankIn_chipStartAddress, bankIn_chipSize, ha4, hz4]
    rw [bankIn_blendedIn_of_present _ _ _ hc, ha, hz]
  · intro w hw hwv
    refine ⟨_, FinalIII.poke_DFFF_eq w s, ?_⟩
    rw [htab, FinalIII.poke_DFFF_blendedIn, and_three_eq_mod w hw, hwv]

/-- Witness of C4: the write of `0x42` to the sample cartridge, which has bank 2
laid out, puts chip 2 at `0x8000` and chip 6 at `0xE000`. -/
theorem FinalIII.poke_banks_in_chip_and_sibling_witness :
    FinalIII.hasBank sampleFinalIII 2 ∧
    ∃ s', FinalIII.poke 0xDFFF 0x42 sampleFinalIII = some s' ∧
      s'.blendedIn 8 = 2 ∧ s'.blendedIn 11 = 2 ∧
      s'.blendedIn 14 = 6 ∧ s'.blendedIn 15 = 6 := by
  have hb : FinalIII.hasBank sampleFinalIII 2 :=
    ⟨Option.some_ne_none _, rfl, rfl, Option.some_ne_none _, rfl, rfl⟩
  obtain ⟨s', hs, _, hslots, _⟩ :=
    FinalIII.poke_banks_in_chip_and_sibling 0x42 (by decide) sampleFinalIII
  exact ⟨hb, s', hs, by rw [hslots hb 8]; rfl, by rw [hslots hb 11]; rfl,
    by rw [hslots hb 14]; rfl, by rw [hslots hb 15]; rfl⟩

/-- C5 (counterexample): the sample cartridge has GAME high, no NMI request and
bank 1 selected (the state a write of `0x71` leaves).  The write of `0x10` sets
EXROM high, but it also pulls GAME low, asserts the NMI request and replaces
chip 1 by chip 0 at `0x8000` and chip 5 by chip 4 at `0xE000`. -/
theorem FinalIII.poke_0x10_changes_game_nmi_bank :
    ∃ s', FinalIII.poke 0xDFFF 0x10 sampleFinalIII = some s' ∧
      s'.exromLine = true ∧
      s'.gameLine ≠ sampleFinalIII.gameLine ∧
      s'.nmiLineExpansionPort ≠ sampleFinalIII.nmiLineExpansionPort ∧
      s'.blendedIn 8 ≠ sampleFinalIII.blendedIn 8 ∧
      s'.blendedIn 14 ≠ sampleFinalIII.blendedIn 14 := by
  refine ⟨_, rfl, ?_, ?_, ?_, ?_, ?_⟩ <;> decide

/-- C5 (amended): from every prior state, `FinalIII::poke(0xDFFF, 0x10)` returns
and sets EXROM high, GAME low (so the machine is in ultimax mode), asserts the
expansion port's NMI request, and banks in chip 0 and chip 4. -/
theorem FinalIII.poke_0x10_effect (s : C64) :
    ∃ s', FinalIII.poke 0xDFFF 0x10 s = some s' ∧
      s'.exromLine = true ∧ s'.gameLine = false ∧ s'.ultimax = true ∧
      s'.nmiLineExpansionPort = true ∧
      s'.blendedIn = (bankIn 4 (bankIn 0 s)).blendedIn := by
  refine ⟨_, FinalIII.poke_DFFF_eq 0x10 s, ?_, ?_, ?_, ?_, ?_⟩
  · rw [bankIn_exromLine, bankIn_exromLine, FinalIII.afterLines_exromLine]; decide
  · rw [bankIn_gameLine, bankIn_gameLine, FinalIII.afterLines_gameLine]; decide
  · rw [bankIn_ultimax, bankIn_ultimax]; rfl
  · rw [bankIn_nmiLineExpansionPort, bankIn_nmiLineExpansionPort,
      FinalIII.afterLines_nmiLineExpansionPort]; decide
  · exact FinalIII.poke_DFFF_blendedIn 0x10 s

/-! ## Powerplay: the bank register `0xDE00` -/

/-- C6: for every byte `v` other than `0x86`, `Powerplay::poke(0xDE00, v)`
returns and banks in bank `((v >> 3) & 7) | ((v & 1) << 3)`: bits 2, 1, 0 of the
bank are bits 5, 4, 3 of `v`, bit 3 of the bank is bit 0 of `v`, and no higher
bit of the bank is set (the "xx210xx3" wiring).  In particular the byte `0x05`
banks in bank 8. -/
theorem Powerplay.poke_banks_in_wired_bank (v : Nat) (hv : v < 256) (h86 : v ≠ 0x86)
    (s : C64) :
    Powerplay.poke 0xDE00 v s =
      some (bankIn (((v >>> 3) &&& 7) ||| ((v &&& 1) <<< 3)) s) ∧
    ((((v >>> 3) &&& 7) ||| ((v &&& 1) <<< 3)).testBit 0 = v.testBit 3 ∧
     (((v >>> 3) &&& 7) ||| ((v &&& 1) <<< 3)).testBit 1 = v.testBit 4 ∧
     (((v >>> 3) &&& 7) ||| ((v &&& 1) <<< 3)).testBit 2 = v.testBit 5 ∧
     (((v >>> 3) &&& 7) ||| ((v &&& 1) <<< 3)).testBit 3 = v.testBit 0) ∧
    ((v >>> 3) &&& 7) ||| ((v &&& 1) <<< 3) < 16 ∧
    Powerplay.poke 0xDE00 0x05 s = some (bankIn 8 s) := by
  obtain ⟨heq, hlt⟩ := Powerplay.bank_eq v hv
  have hbits := Powerplay.bank_testBit v hv
  rw [heq] at hbits hlt
  refine ⟨?_, hbits, hlt, ?_⟩
  · rw [Powerplay.poke_DE00_eq v hv h86 s, heq]
  · rw [Powerplay.poke_DE00_eq 0x05 (by decide) (by decide) s]
    rfl

/-- Witness of C6 at the byte `0x05`: the write banks in chip 8, not chip 5; on
the sample cartridge the slot of `0x8000` then shows chip 8. -/
theorem Powerplay.poke_banks_in_wired_bank_witness :
    Powerplay.poke 0xDE00 0x05 sampleBanked = some (bankIn 8 sampleBanked) ∧
    (bankIn 8 sampleBanked).blendedIn 8 = 8 ∧
    (bankIn 5 sampleBanked).blendedIn 8 = 5 :=
  ⟨(Powerplay.poke_banks_in_wired_bank 0x05 (by decide) (by decide) sampleBanked).1,
    by decide, by decide⟩

/-- C7 (counterexample): for the byte `0x02` (bit 1 only) the claim asks for
bank bit 0 = bit 1 of `v` = 1, that is bank 1; the code selects bank 0. -/
theorem Powerplay.poke_0x02_selects_bank_0 :
    Powerplay.poke 0xDE00 0x02 sampleBanked = some (bankIn 0 sampleBanked) ∧
    Powerplay.bank 0x02 = 0 ∧
    ¬ ((Powerplay.bank 0x02).testBit 0 = (0x02 : Nat).testBit 1) := by
  refine ⟨rfl, ?_, ?_⟩ <;> decide

/-- C7 (amended): for every byte `v` other than the sentinel `0x86`,
`Powerplay::poke(0xDE00, v)` returns and banks in a bank `b` whose bits 0-2 are
bits 3-5 of `v` and whose bit 3 is bit 0 of `v`. -/
theorem Powerplay.poke_bank_bits (v : Nat) (hv : v < 256) (h86 : v ≠ 0x86) (s : C64) :
    ∃ b, Powerplay.poke 0xDE00 v s = some (bankIn b s) ∧
      b.testBit 0 = v.testBit 3 ∧ b.testBit 1 = v.testBit 4 ∧
      b.testBit 2 = v.testBit 5 ∧ b.testBit 3 = v.testBit 0 :=
  ⟨Powerplay.bank v, Powerplay.poke_DE00_eq v hv h86 s, Powerplay.bank_testBit v hv⟩

/-- Witness of C7 (amended) at the byte `0x08` (bit 3 only), which selects a
bank with bit 0 set. -/
theorem Powerplay.poke_bank_bits_witness :
    ∃ b, Powerplay.poke 0xDE00 0x08 sampleBanked = some (bankIn b sampleBanked) ∧
      b.testBit 0 = (0x08 : Nat).testBit 3 ∧ b.testBit 1 = (0x08 : Nat).testBit 4 ∧
      b.testBit 2 = (0x08 : Nat).testBit 5 ∧ b.testBit 3 = (0x08 : Nat).testBit 0 :=
  Powerplay.poke_bank_bits 0x08 (by decide) (by decide) sampleBanked

/-- C8 (counterexample): the sample cartridge is in the 8KB configuration
(EXROM low, GAME high), where the slot of `0x8000` is read from the cartridge.
After `Powerplay::poke(0xDE00, 0x86)` both lines are high and the same slot is
read from RAM: the routing is not the one before the write. -/
theorem Powerplay.poke_0x86_changes_routing :
    AddressSpace.peekSrc sampleBanked 8 = MemoryType.M_CRTLO ∧
    ∃ s', Powerplay.poke 0xDE00 0x86 sampleBanked = some s' ∧
      AddressSpace.peekSrc s' 8 = MemoryType.M_RAM ∧
      AddressSpace.peekSrc s' 8 ≠ AddressSpace.peekSrc sampleBanked 8 := by
  refine ⟨by decide, _, rfl, ?_, ?_⟩ <;> decide

/-- C8 (amended): from every state, `Powerplay::poke(0xDE00, 0x86)` returns,
sets both the GAME and the EXROM line high, and calls no `bankIn`: the
cartridge's slot table and chips, and the NMI request, are those of the state
before the write.  The routing follows the two high lines: afterwards no bank
slot is read from the cartridge. -/
theorem Powerplay.poke_0x86_disables (s : C64) :
    ∃ s', Powerplay.poke 0xDE00 0x86 s = some s' ∧
      s'.gameLine = true ∧ s'.exromLine = true ∧
      s'.blendedIn = s.blendedIn ∧ s'.chip = s.chip ∧
      s'.chipStartAddress = s.chipStartAddress ∧ s'.chipSize = s.chipSize ∧
      s'.nmiLineExpansionPort = s.nmiLineExpansionPort ∧
      ∀ slot, AddressSpace.peekSrc s' slot ≠ MemoryType.M_CRTLO ∧
        AddressSpace.peekSrc s' slot ≠ MemoryType.M_CRTHI := by
  refine ⟨setExromLine true (setGameLine true s), by simp [Powerplay.poke],
    rfl, rfl, rfl, rfl, rfl, rfl, rfl, ?_⟩
  intro slot
  simp only [AddressSpace.peekSrc, setExromLine, setGameLine]
  constructor <;> split_ifs <;> simp_all

/-! ## Ocean type 1: the bank register `0xDE00` -/

/-- C9: for every byte `v`, `OceanType1::poke(0xDE00, v)` returns and banks in
bank `v mod 64`, which is below 64; two bytes with the same low six bits leave
the same state, whatever their bits 6 and 7. -/
theorem OceanType1.poke_banks_in_low_six_bits (v : Nat) (hv : v < 256) (s : C64) :
    OceanType1.poke 0xDE00 v s = some (bankIn (v % 64) s) ∧
    v % 64 < 64 ∧
    ∀ w, w < 256 → w % 64 = v % 64 →
      OceanType1.poke 0xDE00 w s = OceanType1.poke 0xDE00 v s := by
  have key : ∀ u, u < 256 → OceanType1.poke 0xDE00 u s = some (bankIn (u % 64) s) := by
    intro u hu
    simp [OceanType1.poke, and_0x3F_eq_mod u hu]
  refine ⟨key v hv, Nat.mod_lt _ (by decide), ?_⟩
  intro w hw hwv
  rw [key w hw, key v hv, hwv]

/-- Witness of C9: the bytes `0xC3` and `0x03` both bank in chip 3. -/
theorem OceanType1.poke_banks_in_low_six_bits_witness :
    OceanType1.poke 0xDE00 0xC3 sampleBanked = some (bankIn 3 sampleBanked) ∧
    OceanType1.poke 0xDE00 0x03 sampleBanked =
      OceanType1.poke 0xDE00 0xC3 sampleBanked :=
  ⟨(OceanType1.poke_banks_in_low_six_bits 0xC3 (by decide) sampleBanked).1,
    (OceanType1.poke_banks_in_low_six_bits 0xC3 (by decide) sampleBanked).2.2
      0x03 (by decide) (by decide)⟩

/-! ## Simons Basic: the register `0xDE00` -/

/-- C10: for every data byte `v1`, `SimonsBasic::poke(0xDE00, v1)` returns and
leaves the GAME line low; for any two data bytes `v1`, `v2` the write leaves the
same state from the same start state. -/
theorem SimonsBasic.poke_DE00_ignores_data (v1 v2 : Nat) (s : C64) :
    (∃ s', SimonsBasic.poke 0xDE00 v1 s = some s' ∧ s'.gameLine = false) ∧
    SimonsBasic.poke 0xDE00 v1 s = SimonsBasic.poke 0xDE00 v2 s :=
  ⟨⟨setGameLine false s, by simp [SimonsBasic.poke], rfl⟩, rfl⟩

/-! ## Expert: serialisation -/

theorem write8_ptr (b : Buffer) (v : Nat) : (write8 b v).ptr = b.ptr + 1 := rfl

theorem read8_ptr (b : Buffer) : (read8 b).2.ptr = b.ptr + 1 := rfl

/-- The sample serialiser writes two bytes. -/
theorem sampleCartridgeOps_save_ptr (c : Cartridge) (b : Buffer) :
    (sampleCartridgeOps.saveToBuffer c b).ptr = b.ptr + sampleCartridgeOps.stateSize c := rfl

/-- The sample serialiser reads two bytes. -/
theorem sampleCartridgeOps_load_ptr (c : Cartridge) (b : Buffer) :
    (sampleCartridgeOps.loadFromBuffer c b).2.ptr =
      b.ptr + sampleCartridgeOps.stateSize (sampleCartridgeOps.loadFromBuffer c b).1 := rfl

/-- C11: if `Cartridge::saveToBuffer` advances the pointer by
`Cartridge::stateSize()` and `Cartridge::loadFromBuffer` advances it by the
`Cartridge::stateSize()` of the loaded state, then in every cartridge state
`Expert::saveToBuffer` and `Expert::loadFromBuffer` return (the `assert(false)`
is not reached) with the pointer advanced by `Expert::stateSize()`, which is
`Cartridge::stateSize() + 1`. -/
theorem Expert.save_load_advance_by_stateSize (ops : CartridgeOps)
    (hsave : ∀ c b, (ops.saveToBuffer c b).ptr = b.ptr + ops.stateSize c)
    (hload : ∀ c b, (ops.loadFromBuffer c b).2.ptr =
      b.ptr + ops.stateSize (ops.loadFromBuffer c b).1)
    (e : Expert) (b : Buffer) :
    Expert.stateSize ops e = ops.stateSize e.toCartridge + 1 ∧
    (∃ b', Expert.saveToBuffer ops e b = some b' ∧
      b'.ptr = b.ptr + Expert.stateSize ops e) ∧
    (∃ e' b', Expert.loadFromBuffer ops e b = some (e', b') ∧
      b'.ptr = b.ptr + Expert.stateSize ops e') := by
  refine ⟨rfl, ?_, ?_⟩
  · refine ⟨write8 (ops.saveToBuffer e.toCartridge b) (if e.active then 1 else 0), ?_, ?_⟩
    · unfold Expert.saveToBuffer
      simp only [write8_ptr, hsave, Expert.stateSize]
      rw [if_neg]
      push_cast
      omega
    · simp only [write8_ptr, hsave, Expert.stateSize]
      omega
  · refine ⟨{ toCartridge := (ops.loadFromBuffer e.toCartridge b).1,
               active := toBool (read8 (ops.loadFromBuffer e.toCartridge b).2).1 },
      (read8 (ops.loadFromBuffer e.toCartridge b).2).2, ?_, ?_⟩
    · unfold Expert.loadFromBuffer
      simp only [read8_ptr, hload, Expert.stateSize]
      rw [if_neg]
      push_cast
      omega
    · simp only [read8_ptr, hload, Expert.stateSize]
      omega

/-- Witness of C11: with the sample serialiser (two bytes for the base class),
saving the sample cartridge moves the pointer from 16 to 19. -/
theorem Expert.save_load_advance_by_stateSize_witness :
    Expert.stateSize sampleCartridgeOps sampleExpert = 3 ∧
    (∃ b', Expert.saveToBuffer sampleCartridgeOps sampleExpert sampleBuffer = some b' ∧
      b'.ptr = 16 + 3) ∧
    (∃ e' b', Expert.loadFromBuffer sampleCartridgeOps sampleExpert sampleBuffer =
      some (e', b') ∧ b'.ptr = 16 + 3) :=
  ⟨rfl, (Expert.save_load_advance_by_stateSize sampleCartridgeOps
    sampleCartridgeOps_save_ptr sampleCartridgeOps_load_ptr sampleExpert sampleBuffer).2⟩

/-- C12: let the base class write `Cartridge::stateSize()` bytes for the state
`e`, and let `Cartridge::loadFromBuffer`, run on the object `e0` over any memory
that holds those bytes, restore the base state of `e` and stop behind them.
Then `Expert::saveToBuffer` on `e` returns, and `Expert::loadFromBuffer` run on
`e0` over the bytes it produced returns the state `e` itself: the flag `active`
has the value it had when saved, and the pointer stops where the save stopped. -/
theorem Expert.load_of_save_restores_active (ops : CartridgeOps) (e e0 : Expert)
    (b : Buffer)
    (hsave : (ops.saveToBuffer e.toCartridge b).ptr = b.ptr + ops.stateSize e.toCartridge)
    (hround : ∀ m : Nat → Nat,
      (∀ a, b.ptr ≤ a → a < b.ptr + ops.stateSize e.toCartridge →
        m a = (ops.saveToBuffer e.toCartridge b).mem a) →
      ops.loadFromBuffer e0.toCartridge { mem := m, ptr := b.ptr } =
        (e.toCartridge, { mem := m, ptr := b.ptr + ops.stateSize e.toCartridge })) :
    ∃ b1, Expert.saveToBuffer ops e b = some b1 ∧
      ∃ e1 b2, Expert.loadFromBuffer ops e0 { mem := b1.mem, ptr := b.ptr } = some (e1, b2) ∧
        e1.active = e.active ∧ e1 = e ∧ b2.ptr = b1.ptr := by
  have hb1 : Expert.saveToBuffer ops e b =
      some (write8 (ops.saveToBuffer e.toCartridge b) (if e.active then 1 else 0)) := by
    unfold Expert.saveToBuffer
    simp only [write8_ptr, hsave, Expert.stateSize]
    rw [if_neg]
    push_cast
    omega
  have hagree : ∀ a, b.ptr ≤ a → a < b.ptr + ops.stateSize e.toCartridge →
      (write8 (ops.saveToBuffer e.toCartridge b) (if e.active then 1 else 0)).mem a =
        (ops.saveToBuffer e.toCartridge b).mem a := by
    intro a _ ha
    have hne : a ≠ (ops.saveToBuffer e.toCartridge b).ptr := by rw [hsave]; omega
    simp [write8, Function.update_noteq hne]
  have hl := hround _ hagree
  have hbyte : toBool ((write8 (ops.saveToBuffer e.toCartridge b)
      (if e.active then 1 else 0)).mem (b.ptr + ops.stateSize e.toCartridge) % 256) =
      e.active := by
    rw [← hsave]
    cases e.active <;> simp [write8, toBool]
  refine ⟨_, hb1, e,
    ⟨(write8 (ops.saveToBuffer e.toCartridge b) (if e.active then 1 else 0)).mem,
      b.ptr + ops.stateSize e.toCartridge + 1⟩, ?_, rfl, rfl, ?_⟩
  · unfold Expert.loadFromBuffer
    simp only [hl, read8, hbyte, Expert.stateSize]
    rw [if_neg]
    push_cast
    omega
  · simp only [write8_ptr, hsave]

/-- Witness of C12: the sample cartridge is active; its saved bytes, loaded
into a freshly constructed (inactive) Expert cartridge, make that one active. -/
theorem Expert.load_of_save_restores_active_witness :
    sampleExpert.active = true ∧
    (Expert.new { externalRam := none, ramCapacity := 0 }).active = false ∧
    ∃ b1, Expert.saveToBuffer sampleCartridgeOps sampleExpert sampleBuffer = some b1 ∧
      ∃ e1 b2, Expert.loadFromBuffer sampleCartridgeOps
          (Expert.new { externalRam := none, ramCapacity := 0 })
          { mem := b1.mem, ptr := sampleBuffer.ptr } = some (e1, b2) ∧
        e1.active = sampleExpert.active ∧ e1 = sampleExpert ∧ b2.ptr = b1.ptr :=
  ⟨rfl, rfl, Expert.load_of_save_restores_active sampleCartridgeOps sampleExpert
    (Expert.new { externalRam := none, ramCapacity := 0 }) sampleBuffer rfl (by
      intro m hm
      have h16 : m 16 = 32 := hm 16 (by decide) (by decide)
      have h17 : m 17 = 0 := hm 17 (by decide) (by decide)
      show (({ externalRam := some (fun _ => 0),
               ramCapacity := m 16 % 256 * 256 + m 17 % 256 } : Cartridge),
            ({ mem := m, ptr := 18 } : Buffer)) = _
      rw [h16, h17]
      rfl)⟩

/-! ## Expert: loading a chip -/

/-- C13: on an Expert cartridge with the RAM the constructor allocates
(capacity `0x2000`), and for 16-bit chip size and load address,
`Expert::loadChip(nr, c)` returns (no `assert` fails).  It rejects the chip iff
`nr != 0` or the chip size is not `0x2000` or the load address is not `0x8000`,
and then the cartridge state is unchanged; otherwise each of the `0x2000` bytes
of the on-board RAM is the corresponding byte of the chip data, and capacity and
`active` are unchanged. -/
theorem Expert.loadChip_rejects_or_fills_ram (nr : Nat) (c : CRTFile) (e : Expert)
    (hcap : e.ramCapacity = 0x2000) (hram : e.externalRam ≠ none)
    (hsize : c.chipSize nr < 0x10000) (haddr : c.chipAddr nr < 0x10000) :
    ∃ e' rejected, Expert.loadChip nr c e = some (e', rejected) ∧
      (rejected = true ↔ (nr ≠ 0 ∨ c.chipSize nr ≠ 0x2000 ∨ c.chipAddr nr ≠ 0x8000)) ∧
      (rejected = true → e' = e) ∧
      (rejected = false →
        (∃ ram', e'.externalRam = some ram' ∧
          ∀ k, k < 0x2000 → ram' k = c.chipData nr k) ∧
        e'.ramCapacity = 0x2000 ∧ e'.active = e.active) := by
  have hs : c.chipSize nr % 0x10000 = c.chipSize nr := Nat.mod_eq_of_lt hsize
  have ha : c.chipAddr nr % 0x10000 = c.chipAddr nr := Nat.mod_eq_of_lt haddr
  by_cases h : nr ≠ 0 ∨ c.chipSize nr ≠ 0x2000 ∨ c.chipAddr nr ≠ 0x8000
  · refine ⟨e, true, ?_, ?_, fun _ => rfl, fun hf => by cases hf⟩
    · unfold Expert.loadChip
      simp only [hs, ha]
      rw [if_pos h]
    · exact ⟨fun _ => h, fun _ => rfl⟩
  · obtain ⟨ram, hr⟩ := Option.ne_none_iff_exists'.mp hram
    have hsz : c.chipSize nr = 0x2000 := by
      by_contra hne
      exact h (Or.inr (Or.inl hne))
    refine ⟨{ e with
        externalRam := some (fun k => if k < c.chipSize nr then c.chipData nr k else ram k) },
      false, ?_, ?_, fun hf => (by cases hf), fun _ => ⟨⟨_, rfl, ?_⟩, hcap, rfl⟩⟩
    · unfold Expert.loadChip
      simp only [hs, ha]
      rw [if_neg h]
      simp only [hr]
      rw [if_neg (by rw [hcap, hsz]; decide)]
    · exact ⟨fun hf => (by cases hf), fun hc => absurd hc h⟩
    · intro k hk
      rw [hsz, if_pos hk]

/-- Witness of C13: the constructor's state meets the two conditions on the
RAM, and chip 0 of the sample image is loaded into it. -/
theorem Expert.loadChip_rejects_or_fills_ram_witness :
    (Expert.new { externalRam := none, ramCapacity := 0 }).ramCapacity = 0x2000 ∧
    (Expert.new { externalRam := none, ramCapacity := 0 }).externalRam ≠ none ∧
    ∃ e' rejected,
      Expert.loadChip 0 sampleCRT (Expert.new { externalRam := none, ramCapacity := 0 }) =
        some (e', rejected) ∧
      (rejected = true ↔
        ((0 : Nat) ≠ 0 ∨ sampleCRT.chipSize 0 ≠ 0x2000 ∨ sampleCRT.chipAddr 0 ≠ 0x8000)) ∧
      (rejected = true → e' = Expert.new { externalRam := none, ramCapacity := 0 }) ∧
      (rejected = false →
        (∃ ram', e'.externalRam = some ram' ∧
          ∀ k, k < 0x2000 → ram' k = sampleCRT.chipData 0 k) ∧
        e'.ramCapacity = 0x2000 ∧
        e'.active = (Expert.new { externalRam := none, ramCapacity := 0 }).active) :=
  ⟨rfl, Option.some_ne_none _,
    Expert.loadChip_rejects_or_fills_ram 0 sampleCRT
      (Expert.new { externalRam := none, ramCapacity := 0 }) rfl (Option.some_ne_none _)
      (by decide) (by decide)⟩

/-! ## Expert: the routing tables -/

/-- A run of the redirecting loop over the slots `a .. a + n - 1`. -/
theorem Expert.redirect_loop (n a : Nat) (mem : C64Memory) (i : Nat) :
    ((List.range' a n).foldl
      (fun m j =>
        ({ peekSrc := Function.update m.peekSrc j MemoryType.M_CRTLO
           pokeTarget := Function.update m.pokeTarget j MemoryType.M_CRTLO } : C64Memory))
      mem).peekSrc i =
      (if a ≤ i ∧ i < a + n then MemoryType.M_CRTLO else mem.peekSrc i) ∧
    ((List.range' a n).foldl
      (fun m j =>
        ({ peekSrc := Function.update m.peekSrc j MemoryType.M_CRTLO
           pokeTarget := Function.update m.pokeTarget j MemoryType.M_CRTLO } : C64Memory))
      mem).pokeTarget i =
      (if a ≤ i ∧ i < a + n then MemoryType.M_CRTLO else mem.pokeTarget i) := by
  induction n generalizing a mem with
  | zero =>
    have h : ¬ (a ≤ i ∧ i < a + 0) := by omega
    simp only [List.range', List.foldl, if_neg h, and_self]
  | succ n ih =>
    simp only [List.range', List.foldl]
    obtain ⟨h1, h2⟩ := ih (a + 1) _
    rw [h1, h2]
    simp only [Function.update_apply]
    constructor <;> split_ifs <;> first | rfl | omega

/-- The loop of `Expert::updatePeekPokeLookupTables`, slot by slot. -/
theorem Expert.updatePeekPokeLookupTables_slot (e : Expert) (mem : C64Memory) (i : Nat) :
    (Expert.updatePeekPokeLookupTables e mem).peekSrc i =
      (if 1 ≤ i ∧ i < 16 then MemoryType.M_CRTLO else mem.peekSrc i) ∧
    (Expert.updatePeekPokeLookupTables e mem).pokeTarget i =
      (if 1 ≤ i ∧ i < 16 then MemoryType.M_CRTLO else mem.pokeTarget i) :=
  Expert.redirect_loop 15 1 mem i

/-- C14 (counterexample): the flag `active` of a freshly constructed Expert
cartridge is false, and `updatePeekPokeLookupTables` still redirects slot 1 of
all-RAM routing tables, for reading and for writing, to the cartridge. -/
theorem Expert.updatePeekPokeLookupTables_inactive_redirects :
    (Expert.new { externalRam := none, ramCapacity := 0 }).active = false ∧
    sampleMemory.peekSrc 1 = MemoryType.M_RAM ∧
    sampleMemory.pokeTarget 1 = MemoryType.M_RAM ∧
    (Expert.updatePeekPokeLookupTables
      (Expert.new { externalRam := none, ramCapacity := 0 }) sampleMemory).peekSrc 1 =
        MemoryType.M_CRTLO ∧
    (Expert.updatePeekPokeLookupTables
      (Expert.new { externalRam := none, ramCapacity := 0 }) sampleMemory).pokeTarget 1 =
        MemoryType.M_CRTLO := by
  refine ⟨rfl, rfl, rfl, ?_, ?_⟩
  · exact (Expert.updatePeekPokeLookupTables_slot _ _ 1).1
  · exact (Expert.updatePeekPokeLookupTables_slot _ _ 1).2

/-- C14 (amended): `Expert::updatePeekPokeLookupTables` does not read the flag
`active`.  For every cartridge state and all routing tables it makes the
cartridge (`M_CRTLO`) the read source and the write target of the bank slots
1 to 15 and leaves every other slot as it was; two cartridge states that differ
in `active` give the same tables. -/
theorem Expert.updatePeekPokeLookupTables_redirects_slots_1_15 (e e2 : Expert)
    (mem : C64Memory) (i : Nat) :
    (Expert.updatePeekPokeLookupTables e mem).peekSrc i =
      (if 1 ≤ i ∧ i < 16 then MemoryType.M_CRTLO else mem.peekSrc i) ∧
    (Expert.updatePeekPokeLookupTables e mem).pokeTarget i =
      (if 1 ≤ i ∧ i < 16 then MemoryType.M_CRTLO else mem.pokeTarget i) ∧
    Expert.updatePeekPokeLookupTables e mem = Expert.updatePeekPokeLookupTables e2 mem :=
  ⟨(Expert.updatePeekPokeLookupTables_slot e mem i).1,
    (Expert.updatePeekPokeLookupTables_slot e mem i).2, rfl⟩

/-! ## Banking in, as one update of the slot table -/

/-- The state after `bankIn` is the old state with a new slot table. -/
theorem bankIn_eq (nr : Nat) (s : C64) :
    bankIn nr s =
      { s with
        blendedIn := fun slot =>
          if s.chip nr ≠ none ∧ s.chipStartAddress nr / 0x1000 ≤ slot ∧
              slot < s.chipStartAddress nr / 0x1000 + s.chipSize nr / 0x1000
          then nr else s.blendedIn slot } := by
  unfold bankIn
  cases h : s.chip nr <;> simp

theorem bankIn_idem (nr : Nat) (s : C64) : bankIn nr (bankIn nr s) = bankIn nr s := by
  simp only [bankIn_eq]
  congr 1
  funext slot
  split_ifs <;> rfl

/-- Banking in two chips one after the other, twice, is banking them in once. -/
theorem bankIn_pair_idem (a b : Nat) (s : C64) :
    bankIn b (bankIn a (bankIn b (bankIn a s))) = bankIn b (bankIn a s) := by
  simp only [bankIn_eq]
  congr 1
  funext slot
  split_ifs <;> rfl

theorem FinalIII.afterLines_bankIn (v nr : Nat) (s : C64) :
    FinalIII.afterLines v (bankIn nr s) = bankIn nr (FinalIII.afterLines v s) := by
  simp only [bankIn_eq, FinalIII.afterLines, setGameLine, setExromLine,
    setNMILineExpansionPort, clearNMILineExpansionPort]
  split_ifs <;> rfl

theorem FinalIII.afterLines_idem (v : Nat) (s : C64) :
    FinalIII.afterLines v (FinalIII.afterLines v s) = FinalIII.afterLines v s := by
  simp only [FinalIII.afterLines, setGameLine, setExromLine,
    setNMILineExpansionPort, clearNMILineExpansionPort]
  split_ifs <;> rfl

/-- The slot table after banking in bank `b` of a cartridge laid out by
`FinalIII::reset`. -/
theorem FinalIII.blendedIn_of_hasBank (b : Nat) (s : C64) (h : FinalIII.hasBank s b)
    (slot : Nat) :
    (bankIn (b + 4) (bankIn b s)).blendedIn slot =
      if 14 ≤ slot ∧ slot < 16 then b + 4
      else if 8 ≤ slot ∧ slot < 12 then b
      else s.blendedIn slot := by
  obtain ⟨hc, ha, hz, hc4, ha4, hz4⟩ := h
  rw [bankIn_blendedIn_of_present _ _ _ (by simpa using hc4)]
  simp only [bankIn_chipStartAddress, bankIn_chipSize, ha4, hz4]
  rw [bankIn_blendedIn_of_present _ _ _ hc, ha, hz]

/-! ## Final Cartridge III: reset and the freeze button -/

/-- C16: `FinalIII::pressFirstButton` is the write `poke(0xDFFF, 0x10)`.  From
every state it returns and leaves GAME low and EXROM high (ultimax mode), the
expansion port's NMI request asserted, and chip 0 and chip 4 banked in; on a
cartridge laid out by `reset` chip 0 fills the slots of `0x8000-0xBFFF` and
chip 4 those of `0xE000-0xFFFF`. -/
theorem FinalIII.pressFirstButton_is_poke_0x10 (s : C64) :
    FinalIII.pressFirstButton s = FinalIII.poke 0xDFFF 0x10 s ∧
    ∃ s', FinalIII.pressFirstButton s = some s' ∧
      s'.gameLine = false ∧ s'.exromLine = true ∧ s'.ultimax = true ∧
      s'.nmiLineExpansionPort = true ∧
      s'.blendedIn = (bankIn 4 (bankIn 0 s)).blendedIn ∧
      (FinalIII.hasBank s 0 →
        ∀ slot, s'.blendedIn slot =
          if 14 ≤ slot ∧ slot < 16 then 4
          else if 8 ≤ slot ∧ slot < 12 then 0
          else s.blendedIn slot) := by
  refine ⟨rfl, _, FinalIII.poke_DFFF_eq 0x10 s, ?_, ?_, ?_, ?_, ?_, ?_⟩
  · rw [bankIn_gameLine, bankIn_gameLine, FinalIII.afterLines_gameLine]; decide
  · rw [bankIn_exromLine, bankIn_exromLine, FinalIII.afterLines_exromLine]; decide
  · rw [bankIn_ultimax, bankIn_ultimax]; rfl
  · rw [bankIn_nmiLineExpansionPort, bankIn_nmiLineExpansionPort,
      FinalIII.afterLines_nmiLineExpansionPort]; decide
  · exact FinalIII.poke_DFFF_blendedIn 0x10 s
  · intro h slot
    rw [FinalIII.poke_DFFF_blendedIn 0x10 s]
    exact FinalIII.blendedIn_of_hasBank 0 s h slot

/-- Witness of C16: the freeze button on the sample cartridge (bank 1 selected,
bank 0 laid out) puts chip 0 at `0x8000` and chip 4 at `0xE000`. -/
theorem FinalIII.pressFirstButton_is_poke_0x10_witness :
    FinalIII.hasBank sampleFinalIII 0 ∧
    ∃ s', FinalIII.pressFirstButton sampleFinalIII = some s' ∧
      s'.gameLine = false ∧ s'.exromLine = true ∧
      s'.blendedIn 8 = 0 ∧ s'.blendedIn 14 = 4 := by
  have hb : FinalIII.hasBank sampleFinalIII 0 :=
    ⟨Option.some_ne_none _, rfl, rfl, Option.some_ne_none _, rfl, rfl⟩
  obtain ⟨_, s', hs, hg, he, _, _, _, hslots⟩ :=
    FinalIII.pressFirstButton_is_poke_0x10 sampleFinalIII
  exact ⟨hb, s', hs, hg, he, by rw [hslots hb 8]; rfl, by rw [hslots hb 14]; rfl⟩

/-- C17 (the code at the failing input): whatever `C64::reset` does,
`FinalIII::pressSecondButton` restores the RAM cells `0x0000 .. 0xFFFE` and
leaves in every other cell, the cell `0xFFFF` among them, what the reset put
there.  With a reset that clears the RAM, the cell `0xFFFF` of the sample
machine holds `0x42` before the call and 0 after it. -/
theorem FinalIII.pressSecondButton_ram (reset : Machine → Machine) (m : Machine) (a : Nat) :
    (FinalIII.pressSecondButton reset m).ram a =
      (if a < 0xFFFF then m.ram a else (reset m).ram a) ∧
    sampleMachine.ram 0xFFFF = 0x42 ∧
    (FinalIII.pressSecondButton sampleReset sampleMachine).ram 0xFFFF = 0 := by
  refine ⟨?_, rfl, rfl⟩
  unfold FinalIII.pressSecondButton
  by_cases h : a < 0xFFFF <;> simp [h]

/-! ## Writing the same byte twice -/

/-- The value of `Supergames::poke` at its register `0xDF00`. -/
theorem Supergames.poke_DF00_eq (v : Nat) (s : C64) :
    Supergames.poke 0xDF00 v s =
      some (bankIn (v &&& 0x03)
        (if toBool (v &&& 0x04) then setGameLine true (setExromLine false s)
         else setGameLine false (setExromLine false s))) := by
  simp [Supergames.poke]

/-- The line effects of `Supergames::poke`, applied to a state that the same
write has left, change nothing. -/
theorem Supergames.lines_bankIn_idem (c : Bool) (nr : Nat) (s : C64) :
    bankIn nr (setGameLine c (setExromLine false
      (bankIn nr (setGameLine c (setExromLine false s))))) =
    bankIn nr (setGameLine c (setExromLine false s)) := by
  simp only [bankIn_eq, setGameLine, setExromLine]
  congr 1
  funext slot
  split_ifs <;> rfl

/-- C18: for every start state and every byte `v`, the write of `v` to the
bank-select register of the Final Cartridge III (`0xDFFF`), of Ocean type 1
(`0xDE00`), of Powerplay (`0xDE00`) and of Supergames (`0xDF00`) returns a state
`s1`, and the same write from `s1` returns `s1` again: control lines, NMI
request, chips and slot table are those of the single write. -/
theorem poke_twice_eq_poke_once (v : Nat) (hv : v < 256) (s : C64) :
    (∃ s1, FinalIII.poke 0xDFFF v s = some s1 ∧ FinalIII.poke 0xDFFF v s1 = some s1) ∧
    (∃ s1, OceanType1.poke 0xDE00 v s = some s1 ∧ OceanType1.poke 0xDE00 v s1 = some s1) ∧
    (∃ s1, Powerplay.poke 0xDE00 v s = some s1 ∧ Powerplay.poke 0xDE00 v s1 = some s1) ∧
    (∃ s1, Supergames.poke 0xDF00 v s = some s1 ∧ Supergames.poke 0xDF00 v s1 = some s1) := by
  refine ⟨⟨_, FinalIII.poke_DFFF_eq v s, ?_⟩, ⟨_, rfl, ?_⟩, ?_, ⟨_, Supergames.poke_DF00_eq v s, ?_⟩⟩
  · rw [FinalIII.poke_DFFF_eq, FinalIII.afterLines_bankIn, FinalIII.afterLines_bankIn,
      FinalIII.afterLines_idem, bankIn_pair_idem]
  · show some (bankIn (v &&& 0x3F) (bankIn (v &&& 0x3F) s)) = some (bankIn (v &&& 0x3F) s)
    rw [bankIn_idem]
  · by_cases h86 : v = 0x86
    · subst h86
      exact ⟨setExromLine true (setGameLine true s), rfl, rfl⟩
    · refine ⟨_, Powerplay.poke_DE00_eq v hv h86 s, ?_⟩
      rw [Powerplay.poke_DE00_eq v hv h86, bankIn_idem]
  · rw [Supergames.poke_DF00_eq]
    cases toBool (v &&& 0x04)
    · exact congrArg some (Supergames.lines_bankIn_idem false _ s)
    · exact congrArg some (Supergames.lines_bankIn_idem true _ s)

/-- Witness of C18: the byte `0x42` written to the sample Final Cartridge III,
and to the sample banked cartridge through the three other registers. -/
theorem poke_twice_eq_poke_once_witness :
    (∃ s1, FinalIII.poke 0xDFFF 0x42 sampleFinalIII = some s1 ∧
      FinalIII.poke 0xDFFF 0x42 s1 = some s1) ∧
    (∃ s1, OceanType1.poke 0xDE00 0x42 sampleBanked = some s1 ∧
      OceanType1.poke 0xDE00 0x42 s1 = some s1) ∧
    (∃ s1, Powerplay.poke 0xDE00 0x42 sampleBanked = some s1 ∧
      Powerplay.poke 0xDE00 0x42 s1 = some s1) ∧
    (∃ s1, Supergames.poke 0xDF00 0x42 sampleBanked = some s1 ∧
      Supergames.poke 0xDF00 0x42 s1 = some s1) :=
  ⟨(poke_twice_eq_poke_once 0x42 (by decide) sampleFinalIII).1,
    (poke_twice_eq_poke_once 0x42 (by decide) sampleBanked).2⟩

/-! ## Scheduler: nested suspend and resume -/

/-- C19: in the spec's pause-depth model, from a running scheduler (pause depth
0), after `suspend` by caller `a`, `suspend` by caller `b` and one `resume`, the
execution thread is still blocked (its step changes nothing); after the second
`resume` its step executes a cycle again. -/
theorem Scheduler.suspend_twice_resume_once_still_paused (a b : Nat) (s : Scheduler)
    (h : s.pauseDepth = 0) :
    Scheduler.executionThreadStep
        (Scheduler.resume a (Scheduler.suspend b (Scheduler.suspend a s))) =
      Scheduler.resume a (Scheduler.suspend b (Scheduler.suspend a s)) ∧
    (Scheduler.executionThreadStep (Scheduler.resume b
        (Scheduler.resume a (Scheduler.suspend b (Scheduler.suspend a s))))).cycle =
      s.cycle + 1 := by
  simp [Scheduler.executionThreadStep, Scheduler.resume, Scheduler.suspend, h]

/-- Witness of C19 for the callers 1 and 2 and a running scheduler at cycle 100. -/
theorem Scheduler.suspend_twice_resume_once_still_paused_witness :
    Scheduler.executionThreadStep
        (Scheduler.resume 1 (Scheduler.suspend 2 (Scheduler.suspend 1 ⟨0, 100⟩))) =
      Scheduler.resume 1 (Scheduler.suspend 2 (Scheduler.suspend 1 ⟨0, 100⟩)) ∧
    (Scheduler.executionThreadStep (Scheduler.resume 2
        (Scheduler.resume 1 (Scheduler.suspend 2 (Scheduler.suspend 1 ⟨0, 100⟩))))).cycle =
      100 + 1 :=
  Scheduler.suspend_twice_resume_once_still_paused 1 2 ⟨0, 100⟩ rfl

/-! ## Final Cartridge III: the order of the five effects -/

/-- `FinalIII::poke` at `0xDFFF` applies the five effects in the order hide,
NMI, GAME, EXROM, bank. -/
theorem FinalIII.poke_DFFF_eq_applyEffects (v : Nat) (s : C64) :
    FinalIII.poke 0xDFFF v s =
      some (FinalIII.applyEffects v
        [Effect.hide, Effect.nmi, Effect.game, Effect.exrom, Effect.bank] s) := by
  rw [FinalIII.poke_DFFF_eq]
  rfl

/-- Any two of the effects of bits 6, 5, 4 and 1-0 can be swapped. -/
theorem FinalIII.Effect.apply_comm (v : Nat) (x y : FinalIII.Effect)
    (hx : x ≠ Effect.hide) (hy : y ≠ Effect.hide) (z : C64) :
    y.apply v (x.apply v z) = x.apply v (y.apply v z) := by
  cases x <;> cases y <;>
    first
    | exact absurd rfl hx
    | exact absurd rfl hy
    | rfl
    | (simp only [FinalIII.Effect.apply, bankIn_eq, setGameLine, setExromLine,
        setNMILineExpansionPort, clearNMILineExpansionPort]
       try (split_ifs <;> rfl))

/-- C20 (counterexample): for the byte `0x80` on the sample cartridge, the
order of `FinalIII::poke` (hide first) leaves GAME and EXROM low, while the same
five effects with hide applied last leave both lines high: the hide effect and
the effects of bits 5 and 4 write the same two lines. -/
theorem FinalIII.effects_order_matters_for_hide :
    FinalIII.poke 0xDFFF 0x80 sampleFinalIII =
      some (FinalIII.applyEffects 0x80
        [Effect.hide, Effect.nmi, Effect.game, Effect.exrom, Effect.bank] sampleFinalIII) ∧
    (FinalIII.applyEffects 0x80
      [Effect.hide, Effect.nmi, Effect.game, Effect.exrom, Effect.bank]
      sampleFinalIII).gameLine = false ∧
    (FinalIII.applyEffects 0x80
      [Effect.hide, Effect.nmi, Effect.game, Effect.exrom, Effect.bank]
      sampleFinalIII).exromLine = false ∧
    (FinalIII.applyEffects 0x80
      [Effect.nmi, Effect.game, Effect.exrom, Effect.bank, Effect.hide]
      sampleFinalIII).gameLine = true ∧
    (FinalIII.applyEffects 0x80
      [Effect.nmi, Effect.game, Effect.exrom, Effect.bank, Effect.hide]
      sampleFinalIII).exromLine = true := by
  refine ⟨FinalIII.poke_DFFF_eq_applyEffects 0x80 sampleFinalIII, ?_, ?_, ?_, ?_⟩ <;> decide

/-- C20 (amended): for every byte `v` and every state, the effects of bit 6
(NMI), bit 5 (GAME), bit 4 (EXROM) and bits 1-0 (bank) can be applied in any
order after the bit-7 step: the final state is the one `FinalIII::poke` leaves. -/
theorem FinalIII.poke_eq_applyEffects_of_perm (v : Nat) (s : C64)
    (l : List FinalIII.Effect)
    (hl : l.Perm [Effect.nmi, Effect.game, Effect.exrom, Effect.bank]) :
    FinalIII.poke 0xDFFF v s = some (FinalIII.applyEffects v (Effect.hide :: l) s) := by
  rw [FinalIII.poke_DFFF_eq_applyEffects]
  have hne : ∀ x ∈ [Effect.nmi, Effect.game, Effect.exrom, Effect.bank],
      x ≠ Effect.hide := by decide
  have hfold := List.Perm.foldl_eq' (f := fun t e => FinalIII.Effect.apply v e t) hl.symm
    (fun x hx y hy z => FinalIII.Effect.apply_comm v x y (hne x hx) (hne y hy) z)
    (Effect.hide.apply v s)
  exact congrArg some hfold

/-- Witness of C20 (amended): the byte `0x42` on the sample cartridge with the
four effects in the reverse order bank, EXROM, GAME, NMI. -/
theorem FinalIII.poke_eq_applyEffects_of_perm_witness :
    FinalIII.poke 0xDFFF 0x42 sampleFinalIII =
      some (FinalIII.applyEffects 0x42
        [Effect.hide, Effect.bank, Effect.exrom, Effect.game, Effect.nmi] sampleFinalIII) :=
  FinalIII.poke_eq_applyEffects_of_perm 0x42 sampleFinalIII
    [Effect.bank, Effect.exrom, Effect.game, Effect.nmi] (by decide)

/-! ## Final Cartridge III: the chips `reset` adds -/

theorem FinalIII.resetStep_eq (s : C64) (i : Nat) (data : List Nat)
    (h : s.chip i = some data) :
    FinalIII.resetStep s i =
      some { s with
        chipStartAddress := Function.update s.chipStartAddress (i + 4) 0xE000
        chipSize := Function.update s.chipSize (i + 4) 0x2000
        chip := Function.update s.chip (i + 4) (some ((data.drop 0x2000).take 0x2000)) } := by
  unfold FinalIII.resetStep
  rw [h]

theorem FinalIII.reset_eq (s : C64) (d : Nat → List Nat)
    (h0 : s.chip 0 = some (d 0)) (h1 : s.chip 1 = some (d 1))
    (h2 : s.chip 2 = some (d 2)) (h3 : s.chip 3 = some (d 3)) :
    ∃ s', FinalIII.reset s = some s' ∧
      (∀ n, s'.chip n =
        if n = 7 then some (((d 3).drop 0x2000).take 0x2000)
        else if n = 6 then some (((d 2).drop 0x2000).take 0x2000)
        else if n = 5 then some (((d 1).drop 0x2000).take 0x2000)
        else if n = 4 then some (((d 0).drop 0x2000).take 0x2000)
        else s.chip n) ∧
      (∀ n, s'.chipStartAddress n =
        if 4 ≤ n ∧ n < 8 then 0xE000 else s.chipStartAddress n) ∧
      (∀ n, s'.chipSize n = if 4 ≤ n ∧ n < 8 then 0x2000 else s.chipSize n) := by
  have hr : List.range 4 = [0, 1, 2, 3] := rfl
  unfold FinalIII.reset
  rw [hr]
  simp only [List.foldl, Option.bind]
  rw [FinalIII.resetStep_eq s 0 (d 0) h0]
  simp only []
  rw [FinalIII.resetStep_eq _ 1 (d 1) (by simp [Function.update_apply, h1])]
  simp only []
  rw [FinalIII.resetStep_eq _ 2 (d 2) (by simp [Function.update_apply, h2])]
  simp only []
  rw [FinalIII.resetStep_eq _ 3 (d 3) (by simp [Function.update_apply, h3])]
  simp only [Option.map]
  refine ⟨_, rfl, ?_, ?_, ?_⟩
  · intro n
    simp only [bankIn_chip, Function.update_apply]
  · intro n
    simp only [bankIn_chipStartAddress, Function.update_apply]
    split_ifs <;> first | rfl | omega
  · intro n
    simp only [bankIn_chipSize, Function.update_apply]
    split_ifs <;> first | rfl | omega

theorem FinalIII.reset_eq_resetWith (s : C64) :
    FinalIII.reset s = FinalIII.resetWith bankIn s := rfl

/-- The upper half of a chip of at least `0x4000` bytes: `0x2000` bytes, byte
`k` being byte `0x2000 + k` of the chip. -/
theorem upper_half_bytes (data : List Nat) (hlen : 0x4000 ≤ data.length) :
    ((data.drop 0x2000).take 0x2000).length = 0x2000 ∧
    ∀ k, k < 0x2000 → ((data.drop 0x2000).take 0x2000)[k]? = data[0x2000 + k]? := by
  constructor
  · rw [List.length_take, List.length_drop]
    omega
  · intro k hk
    rw [List.getElem?_take_of_lt hk, List.getElem?_drop]

/-- C21: on a cartridge whose chips 0 to 3 are present and hold at least
`0x4000` bytes each, `FinalIII::reset` returns, and in the state it leaves, for
every `i` in 0..3, chip `i + 4` has start address `0xE000`, size `0x2000` and
`0x2000` bytes, byte `k` of it being byte `0x2000 + k` of chip `i`, while chip
`i`, its start address and its size are unchanged. -/
theorem FinalIII.reset_mirrors_upper_halves (s : C64) (d : Nat → List Nat)
    (hchip : ∀ i, i < 4 → s.chip i = some (d i))
    (hlen : ∀ i, i < 4 → 0x4000 ≤ (d i).length) :
    ∃ s', FinalIII.reset s = some s' ∧
      ∀ i, i < 4 →
        s'.chipStartAddress (i + 4) = 0xE000 ∧ s'.chipSize (i + 4) = 0x2000 ∧
        (∃ m, s'.chip (i + 4) = some m ∧ m.length = 0x2000 ∧
          ∀ k, k < 0x2000 → m[k]? = (d i)[0x2000 + k]?) ∧
        s'.chip i = s.chip i ∧ s'.chipStartAddress i = s.chipStartAddress i ∧
        s'.chipSize i = s.chipSize i := by
  obtain ⟨s', hs, hc, ha, hz⟩ := FinalIII.reset_eq s d (hchip 0 (by decide))
    (hchip 1 (by decide)) (hchip 2 (by decide)) (hchip 3 (by decide))
  refine ⟨s', hs, ?_⟩
  intro i hi
  have hup := upper_half_bytes (d i) (hlen i hi)
  refine ⟨?_, ?_, ⟨((d i).drop 0x2000).take 0x2000, ?_, hup.1, hup.2⟩, ?_, ?_, ?_⟩
  · rw [ha, if_pos (by omega)]
  · rw [hz, if_pos (by omega)]
  · rw [hc]
    interval_cases i <;> rfl
  · rw [hc]
    interval_cases i <;> rfl
  · rw [ha, if_neg (by omega)]
  · rw [hz, if_neg (by omega)]

/-- Witness of C21: the sample cartridge, whose chip `i` (for `i` in 0..3) is
`0x4000` bytes of value `i`. -/
theorem FinalIII.reset_mirrors_upper_halves_witness :
    (∀ i, i < 4 → sampleFinalIII.chip i = some (List.replicate 0x4000 i)) ∧
    (∀ i, i < 4 → 0x4000 ≤ (List.replicate 0x4000 i).length) ∧
    ∃ s', FinalIII.reset sampleFinalIII = some s' ∧
      ∀ i, i < 4 →
        s'.chipStartAddress (i + 4) = 0xE000 ∧ s'.chipSize (i + 4) = 0x2000 ∧
        (∃ m, s'.chip (i + 4) = some m ∧ m.length = 0x2000 ∧
          ∀ k, k < 0x2000 → m[k]? = (List.replicate 0x4000 i)[0x2000 + k]?) ∧
        s'.chip i = sampleFinalIII.chip i ∧
        s'.chipStartAddress i = sampleFinalIII.chipStartAddress i ∧
        s'.chipSize i = sampleFinalIII.chipSize i := by
  have h1 : ∀ i, i < 4 → sampleFinalIII.chip i = some (List.replicate 0x4000 i) := by
    intro i hi
    show (if i < 4 then some (List.replicate 0x4000 i) else _) = _
    rw [if_pos hi]
  have h2 : ∀ i, i < 4 → 0x4000 ≤ (List.replicate 0x4000 i).length := by
    intro i _
    rw [List.length_replicate]
  exact ⟨h1, h2, FinalIII.reset_mirrors_upper_halves sampleFinalIII
    (fun i => List.replicate 0x4000 i) h1 h2⟩

/-! ## Reading the I/O windows -/

/-- C22: for every `addr` in `0xDE00 .. 0xDFFF`, `FinalIII::peekIO(addr)`
returns the byte `peek(0x8000 + 0x1E00 + (addr - 0xDE00))` and leaves the state
as it was; neither 16-bit value wraps, and the address passed to `peek` lies in
`0x9E00 .. 0x9FFF`. -/
theorem FinalIII.peekIO_mirrors_bank (peek : Nat → C64 → Nat) (addr : Nat) (s : C64)
    (hlo : 0xDE00 ≤ addr) (hhi : addr ≤ 0xDFFF) :
    FinalIII.peekIO peek addr s =
      some (peek (0x8000 + 0x1E00 + (addr - 0xDE00)) s, s) ∧
    (addr - 0xDE00) % 0x10000 = addr - 0xDE00 ∧
    (0x8000 + 0x1E00 + (addr - 0xDE00)) % 0x10000 = 0x8000 + 0x1E00 + (addr - 0xDE00) ∧
    0x9E00 ≤ 0x8000 + 0x1E00 + (addr - 0xDE00) ∧
    0x8000 + 0x1E00 + (addr - 0xDE00) ≤ 0x9FFF := by
  have h1 : (addr - 0xDE00) % 0x10000 = addr - 0xDE00 := Nat.mod_eq_of_lt (by omega)
  have h2 : (0x8000 + 0x1E00 + (addr - 0xDE00)) % 0x10000 =
      0x8000 + 0x1E00 + (addr - 0xDE00) := Nat.mod_eq_of_lt (by omega)
  refine ⟨?_, h1, h2, by omega, by omega⟩
  unfold FinalIII.peekIO
  rw [if_neg (by omega)]
  simp only [h1, h2]

/-- Witness of C22: reading `0xDEFF` on the sample cartridge through the
modelled `Cartridge::peek` reads the cartridge address `0x9EFF`. -/
theorem FinalIII.peekIO_mirrors_bank_witness :
    FinalIII.peekIO Cartridge.peek 0xDEFF sampleFinalIII =
      some (Cartridge.peek (0x8000 + 0x1E00 + (0xDEFF - 0xDE00)) sampleFinalIII,
        sampleFinalIII) ∧
    0x8000 + 0x1E00 + (0xDEFF - 0xDE00) = 0x9EFF :=
  ⟨(FinalIII.peekIO_mirrors_bank Cartridge.peek 0xDEFF sampleFinalIII
    (by decide) (by decide)).1, rfl⟩

/-- C23: `SimonsBasic::peekIO(0xDE00)` returns the value of
`Cartridge::peekIO(0xDE00)` and leaves the GAME line high, the rest of the state
as it was; at every other address of `0xDE01 .. 0xDFFF` it returns the value of
`Cartridge::peekIO` there and leaves the state, the GAME and EXROM lines among
it, unchanged. -/
theorem SimonsBasic.peekIO_DE00_sets_game (basePeek : Nat → C64 → Nat) (addr : Nat)
    (s : C64) (hlo : 0xDE01 ≤ addr) (hhi : addr ≤ 0xDFFF) :
    (∃ s', SimonsBasic.peekIO basePeek 0xDE00 s = some (basePeek 0xDE00 s', s') ∧
      s' = setGameLine true s ∧ s'.gameLine = true ∧ s'.exromLine = s.exromLine) ∧
    (∃ s', SimonsBasic.peekIO basePeek addr s = some (basePeek addr s', s') ∧
      s' = s ∧ s'.gameLine = s.gameLine ∧ s'.exromLine = s.exromLine) := by
  refine ⟨⟨setGameLine true s, ?_, rfl, rfl, rfl⟩, ⟨s, ?_, rfl, rfl, rfl⟩⟩
  · simp [SimonsBasic.peekIO]
  · unfold SimonsBasic.peekIO
    rw [if_neg (by omega), if_neg (by omega)]

/-- Witness of C23 on the sample cartridge with its GAME line pulled low, at the
addresses `0xDE00` and `0xDE01`, with a base-class read that returns 0. -/
theorem SimonsBasic.peekIO_DE00_sets_game_witness :
    (setGameLine false sampleBanked).gameLine = false ∧
    (∃ s', SimonsBasic.peekIO (fun _ _ => 0) 0xDE00 (setGameLine false sampleBanked) =
        some (0, s') ∧
      s' = setGameLine true (setGameLine false sampleBanked) ∧ s'.gameLine = true ∧
      s'.exromLine = (setGameLine false sampleBanked).exromLine) ∧
    (∃ s', SimonsBasic.peekIO (fun _ _ => 0) 0xDE01 (setGameLine false sampleBanked) =
        some (0, s') ∧
      s' = setGameLine false sampleBanked ∧
      s'.gameLine = (setGameLine false sampleBanked).gameLine ∧
      s'.exromLine = (setGameLine false sampleBanked).exromLine) :=
  ⟨rfl, SimonsBasic.peekIO_DE00_sets_game (fun _ _ => 0) 0xDE01
    (setGameLine false sampleBanked) (by decide) (by decide)⟩

/-! ## Supergames: the register `0xDF00` -/

set_option maxRecDepth 100000 in
theorem Supergames.fields_of_low_three_bits : ∀ v < 256,
    toBool (v &&& 0x04) = v.testBit 2 ∧
    v &&& 0x03 = (v % 8) &&& 0x03 ∧ v &&& 0x04 = (v % 8) &&& 0x04 := by
  decide

/-- The slot table after `Supergames::poke` at `0xDF00`. -/
theorem Supergames.poke_DF00_blendedIn (c : Bool) (nr : Nat) (s : C64) :
    (bankIn nr (setGameLine c (setExromLine false s))).blendedIn =
      (bankIn nr s).blendedIn :=
  bankIn_blendedIn_congr nr _ s rfl rfl rfl rfl

/-- C24: for every byte `v`, `Supergames::poke(0xDF00, v)` returns, and in the
state it leaves the EXROM line is low, the GAME line is high iff bit 2 of `v`
is set, and bank `v & 3` is banked in (the slot table is the old one after
`bankIn(v & 3)`).  A byte `w` with the same bits 2-0 leaves the same state,
whatever bit 3 and bits 4-7 are. -/
theorem Supergames.poke_DF00_effect (v : Nat) (hv : v < 256) (s : C64) :
    ∃ s', Supergames.poke 0xDF00 v s = some s' ∧
      s'.exromLine = false ∧
      (s'.gameLine = true ↔ v.testBit 2 = true) ∧
      s'.blendedIn = (bankIn (v % 4) s).blendedIn ∧
      ∀ w, w < 256 → w % 8 = v % 8 →
        Supergames.poke 0xDF00 w s = Supergames.poke 0xDF00 v s := by
  obtain ⟨h2, hb, hc⟩ := Supergames.fields_of_low_three_bits v hv
  refine ⟨_, Supergames.poke_DF00_eq v s, ?_, ?_, ?_, ?_⟩
  · rw [bankIn_exromLine]
    cases toBool (v &&& 0x04) <;> rfl
  · rw [bankIn_gameLine, ← h2]
    cases toBool (v &&& 0x04) <;> simp [setGameLine]
  · rw [and_three_eq_mod v hv]
    cases toBool (v &&& 0x04)
    · exact Supergames.poke_DF00_blendedIn false _ s
    · exact Supergames.poke_DF00_blendedIn true _ s
  · intro w hw hwv
    obtain ⟨_, hb', hc'⟩ := Supergames.fields_of_low_three_bits w hw
    rw [Supergames.poke_DF00_eq, Supergames.poke_DF00_eq, hb, hc, hb', hc', hwv]

/-- Witness of C24: the bytes `0x06` and `0xFE` (same bits 2-0) on the sample
cartridge. -/
theorem Supergames.poke_DF00_effect_witness :
    ∃ s', Supergames.poke 0xDF00 0x06 sampleBanked = some s' ∧
      s'.exromLine = false ∧ s'.gameLine = true ∧
      s'.blendedIn = (bankIn 2 sampleBanked).blendedIn ∧
      Supergames.poke 0xDF00 0xFE sampleBanked = Supergames.poke 0xDF00 0x06 sampleBanked := by
  obtain ⟨s', hs, he, hg, hb, hw⟩ := Supergames.poke_DF00_effect 0x06 (by decide) sampleBanked
  exact ⟨s', hs, he, hg.mpr (by decide), hb, hw 0xFE (by decide) (by decide)⟩

/-! ## Powerplay: every bank can be selected -/

set_option maxRecDepth 100000 in
theorem Powerplay.bank_surjective : ∀ b < 16,
    8 * (b % 8) + b / 8 < 256 ∧ 8 * (b % 8) + b / 8 ≠ 0x86 ∧
    Powerplay.bank (8 * (b % 8) + b / 8) = b := by
  decide

/-- C25: for every byte `v` the bank index `Powerplay::poke` computes is below
16, so `assert(bank < 16)` holds and the write to `0xDE00` returns; and for every
bank `b` in 0..15 there is a byte `w` other than the sentinel `0x86` whose write
banks in `b`. -/
theorem Powerplay.bank_in_range_and_every_bank_selectable (v : Nat) (hv : v < 256)
    (b : Nat) (hb : b < 16) (s : C64) :
    Powerplay.bank v < 16 ∧
    (∃ s', Powerplay.poke 0xDE00 v s = some s') ∧
    ∃ w, w < 256 ∧ w ≠ 0x86 ∧ Powerplay.poke 0xDE00 w s = some (bankIn b s) := by
  refine ⟨(Powerplay.bank_eq v hv).2, ?_, ?_⟩
  · by_cases h86 : v = 0x86
    · subst h86
      exact ⟨setExromLine true (setGameLine true s), rfl⟩
    · exact ⟨_, Powerplay.poke_DE00_eq v hv h86 s⟩
  · obtain ⟨hw, hne, hbank⟩ := Powerplay.bank_surjective b hb
    refine ⟨8 * (b % 8) + b / 8, hw, hne, ?_⟩
    rw [Powerplay.poke_DE00_eq _ hw hne s, hbank]

/-- Witness of C25 for the byte `0xFF` and the bank 15 on the sample
cartridge. -/
theorem Powerplay.bank_in_range_and_every_bank_selectable_witness :
    Powerplay.bank 0xFF < 16 ∧
    (∃ s', Powerplay.poke 0xDE00 0xFF sampleBanked = some s') ∧
    ∃ w, w < 256 ∧ w ≠ 0x86 ∧
      Powerplay.poke 0xDE00 w sampleBanked = some (bankIn 15 sampleBanked) :=
  Powerplay.bank_in_range_and_every_bank_selectable 0xFF (by decide) 15 (by decide)
    sampleBanked

/-! ## Writes beside the control register -/

/-- C26: for every address of the I/O window `0xDE00 .. 0xDFFF` and every data
byte, a `poke` at an address other than the variant's control register returns
the state it started from: `FinalIII` for `addr != 0xDFFF`; `OceanType1`,
`Powerplay` and `SimonsBasic` for `addr != 0xDE00`; `Supergames` for
`addr != 0xDF00`. -/
theorem poke_beside_register_changes_nothing (addr v : Nat) (s : C64)
    (hlo : 0xDE00 ≤ addr) (hhi : addr ≤ 0xDFFF) :
    (addr ≠ 0xDFFF → FinalIII.poke addr v s = some s) ∧
    (addr ≠ 0xDE00 → OceanType1.poke addr v s = some s) ∧
    (addr ≠ 0xDE00 → Powerplay.poke addr v s = some s) ∧
    (addr ≠ 0xDE00 → SimonsBasic.poke addr v s = some s) ∧
    (addr ≠ 0xDF00 → Supergames.poke addr v s = some s) := by
  have hr : ¬ ¬ (0xDE00 ≤ addr ∧ addr ≤ 0xDFFF) := fun h => h ⟨hlo, hhi⟩
  refine ⟨?_, ?_, ?_, ?_, ?_⟩ <;> intro hne
  · unfold FinalIII.poke
    rw [if_neg hr, if_neg hne]
  · unfold OceanType1.poke
    rw [if_neg hr, if_neg hne]
  · unfold Powerplay.poke
    rw [if_neg hr, if_neg hne]
  · unfold SimonsBasic.poke
    rw [if_neg hr, if_neg hne]
  · unfold Supergames.poke
    rw [if_neg hr, if_neg hne]

/-- Witness of C26: the byte `0xFF` written to `0xDE42`, which is no control
register of any of the five variants. -/
theorem poke_beside_register_changes_nothing_witness :
    FinalIII.poke 0xDE42 0xFF sampleFinalIII = some sampleFinalIII ∧
    OceanType1.poke 0xDE42 0xFF sampleBanked = some sampleBanked ∧
    Powerplay.poke 0xDE42 0xFF sampleBanked = some sampleBanked ∧
    SimonsBasic.poke 0xDE42 0xFF sampleBanked = some sampleBanked ∧
    Supergames.poke 0xDE42 0xFF sampleBanked = some sampleBanked :=
  ⟨(poke_beside_register_changes_nothing 0xDE42 0xFF sampleFinalIII
      (by decide) (by decide)).1 (by decide),
    (poke_beside_register_changes_nothing 0xDE42 0xFF sampleBanked
      (by decide) (by decide)).2.1 (by decide),
    (poke_beside_register_changes_nothing 0xDE42 0xFF sampleBanked
      (by decide) (by decide)).2.2.1 (by decide),
    (poke_beside_register_changes_nothing 0xDE42 0xFF sampleBanked
      (by decide) (by decide)).2.2.2.1 (by decide),
    (poke_beside_register_changes_nothing 0xDE42 0xFF sampleBanked
      (by decide) (by decide)).2.2.2.2 (by decide)⟩

/-! ## Expert: reset -/

/-- C27: let `Cartridge::reset` leave the on-board RAM allocated with capacity
`0x2000`.  Then from every prior state `Expert::reset` returns, and in the state
it leaves the flag `active` is false, every one of the `0x2000` bytes of the
on-board RAM is 0, and the capacity is `0x2000`. -/
theorem Expert.reset_clears_ram (baseReset : Cartridge → Cartridge) (e : Expert)
    (hcap : (baseReset e.toCartridge).ramCapacity = 0x2000)
    (hram : (baseReset e.toCartridge).externalRam ≠ none) :
    ∃ e', Expert.reset baseReset e = some e' ∧
      e'.active = false ∧ e'.ramCapacity = 0x2000 ∧
      ∃ ram, e'.externalRam = some ram ∧ ∀ k, k < 0x2000 → ram k = 0 := by
  obtain ⟨ram, hr⟩ := Option.ne_none_iff_exists'.mp hram
  refine ⟨{ externalRam :=
              some (fun k => if k < (baseReset e.toCartridge).ramCapacity then 0 else ram k)
            ramCapacity := (baseReset e.toCartridge).ramCapacity
            active := false }, ?_, rfl, hcap, _, rfl, ?_⟩
  · unfold Expert.reset
    simp only [hr]
  · intro k hk
    rw [hcap, if_pos hk]

/-- Witness of C27: the state in which `loadChip` has just filled the RAM from
the sample image (cell 5 holds 5), reset with a base-class reset that changes
nothing. -/
theorem Expert.reset_clears_ram_witness :
    Expert.loadChip 0 sampleCRT (Expert.new { externalRam := none, ramCapacity := 0 }) =
      some (sampleLoadedExpert, false) ∧
    (∃ ram, sampleLoadedExpert.externalRam = some ram ∧ ram 5 = 5) ∧
    ∃ e', Expert.reset id sampleLoadedExpert = some e' ∧
      e'.active = false ∧ e'.ramCapacity = 0x2000 ∧
      ∃ ram, e'.externalRam = some ram ∧ ∀ k, k < 0x2000 → ram k = 0 :=
  ⟨rfl, ⟨_, rfl, rfl⟩,
    Expert.reset_clears_ram id sampleLoadedExpert rfl (Option.some_ne_none _)⟩

end VirtualC64
